import Mathlib

/-!
Bonded interactions: harmonic angle and tabulated bond / angle / dihedral.

A shallow embedding of

* `src/core/bonded_interactions/bonded_tab.hpp`
* `src/core/bonded_interactions/angle_harmonic.hpp`
* `src/core/observables/ParticlePositions.hpp`

The C++ type `double` is idealised by a linearly ordered field `α`; the
theorems instantiate `α := ℝ`.  The `<cmath>` functions `sqrt` and `acos` are
passed to the definitions explicitly, the theorems instantiate them with
`Real.sqrt` and `Real.arccos`.  `Real.arccos` agrees with `acos` on `[-1, 1]`
and division agrees with `/` for a non-zero divisor, so the theorems carry the
corresponding hypotheses wherever the code takes an arc cosine or divides.

The geometry kernels (`calc_vectors_and_cosine`, `calc_angle_generic_force`,
`calc_angle_generic_3body_forces`, `calc_dihedral_angle`) live in
`angle_common.hpp` and `dihedral.hpp`.  The evaluators below receive them as
arguments; output parameters of the C++ functions become components of the
returned value.
-/

namespace Utils

/-- Three-component vector, `Utils::Vector3d`. -/
@[ext]
structure Vector3d (α : Type) where
  x : α
  y : α
  z : α
deriving DecidableEq

/-- Square of a number, `Utils::sqr`. -/
def sqr {α : Type} [Mul α] (a : α) : α := a * a

namespace Vector3d

variable {α : Type}

/-- Value-initialised vector `Utils::Vector3d{}`: all components zero. -/
instance instZero [Zero α] : Zero (Vector3d α) := ⟨⟨0, 0, 0⟩⟩

/-- Componentwise sum, `operator+`. -/
instance instAdd [Add α] : Add (Vector3d α) := ⟨fun a b => ⟨a.x + b.x, a.y + b.y, a.z + b.z⟩⟩

/-- Componentwise difference, `operator-`. -/
instance instSub [Sub α] : Sub (Vector3d α) := ⟨fun a b => ⟨a.x - b.x, a.y - b.y, a.z - b.z⟩⟩

/-- Componentwise negation, unary `operator-`. -/
instance instNeg [Neg α] : Neg (Vector3d α) := ⟨fun a => ⟨-a.x, -a.y, -a.z⟩⟩

/-- Scalar times vector, `operator*(double, Vector3d)`. -/
instance instSMul [Mul α] : SMul α (Vector3d α) := ⟨fun c a => ⟨c * a.x, c * a.y, c * a.z⟩⟩

/-- Vector divided by scalar, `operator/(Vector3d, double)`. -/
instance instHDiv [Div α] : HDiv (Vector3d α) α (Vector3d α) :=
  ⟨fun a c => ⟨a.x / c, a.y / c, a.z / c⟩⟩

/-- Scalar product, `operator*(Vector3d, Vector3d)`. -/
def dot [Add α] [Mul α] (a b : Vector3d α) : α := a.x * b.x + a.y * b.y + a.z * b.z

/-- Squared length, `Vector::norm2`. -/
def norm2 [Add α] [Mul α] (a : Vector3d α) : α := a.dot a

/-- Length, `Vector::norm`, with the square root of `<cmath>` as argument. -/
def norm [Add α] [Mul α] (sqrt : α → α) (a : Vector3d α) : α := sqrt a.norm2

end Vector3d

/-- Cross product of two vectors, `vector_product`. -/
def vector_product {α : Type} [Sub α] [Mul α] (a b : Vector3d α) : Vector3d α :=
  ⟨a.y * b.z - a.z * b.y, a.z * b.x - a.x * b.z, a.x * b.y - a.y * b.x⟩

end Utils

open Utils

/-- Position record of a particle, the member `r` of `Particle`; only the
position `p` is read by the bonded interactions. -/
structure ParticlePosition (α : Type) where
  p : Vector3d α

/-- The part of `Particle` (`particle_data.hpp`) read by the bonded
interactions. -/
structure Particle (α : Type) where
  r : ParticlePosition α

/-- Modelled from the spec: the class `TabulatedPotential` is declared in a
header that is not among the sources.  Its data are the bounds `minval` and
`maxval` of the sampled domain; its member functions `force` and `energy`
(the interpolated table look-ups) are taken as fields, so that the evaluators
are verified for every table. -/
structure TabulatedPotential (α : Type) where
  minval : α
  maxval : α
  force : α → α
  energy : α → α

/-- Modelled from the spec: `TabulatedPotential::cutoff()` is the upper bound
`maxval` of the table ("`maxval`/`cutoff` (upper bound)"). -/
def TabulatedPotential.cutoff {α : Type} (t : TabulatedPotential α) : α := t.maxval

/-- Parameters of the harmonic angle potential, `iaparams->p.angle_harmonic`. -/
structure Angle_harmonic_bond_parameters (α : Type) where
  bend : α
  phi0 : α

/-- Parameters of a tabulated interaction, `iaparams->p.tab`. -/
structure Tabulated_bond_parameters (α : Type) where
  pot : TabulatedPotential α

/-- The members of the parameter union `iaparams->p` read in these files.  Each
evaluator reads exactly one member, the one of its own interaction type. -/
structure Bond_parameters (α : Type) where
  angle_harmonic : Angle_harmonic_bond_parameters α
  tab : Tabulated_bond_parameters α

/-- Record `Bonded_ia_parameters` of `bonded_interaction_data.hpp`. -/
structure Bonded_ia_parameters (α : Type) where
  p : Bond_parameters α

/-- Result tuple of `calc_vectors_and_cosine`; the evaluators read component 4,
the cosine. -/
abbrev VectorsAndCosine (α : Type) : Type := Vector3d α × Vector3d α × α × α × α

/-- Output parameters of `calc_dihedral_angle` (`dihedral.hpp`), in the order
of the call. -/
structure DihedralAngle (α : Type) where
  v12 : Vector3d α
  v23 : Vector3d α
  v34 : Vector3d α
  v12Xv23 : Vector3d α
  l_v12Xv23 : α
  v23Xv34 : Vector3d α
  l_v23Xv34 : α
  cos_phi : α
  phi : α

section TabulatedBond

variable {α : Type} [LinearOrderedField α]

/-- Tabulated bond length force, `bonded_tab.hpp` lines 73-85. -/
def calc_tab_bond_force (sqrt : α → α) (iaparams : Bonded_ia_parameters α)
    (dx : Vector3d α) : Bool × Vector3d α :=
  let tab_pot := iaparams.p.tab.pot
  let dist := dx.norm sqrt
  if dist < tab_pot.cutoff then
    let fac := tab_pot.force dist / dist
    let force := fac • dx
    (false, force)
  else
    (true, 0)

/-- Tabulated bond length energy, `bonded_tab.hpp` lines 97-108. -/
def tab_bond_energy (sqrt : α → α) (iaparams : Bonded_ia_parameters α)
    (dx : Vector3d α) : Bool × α :=
  let tab_pot := iaparams.p.tab.pot
  let dist := dx.norm sqrt
  if dist < tab_pot.cutoff then
    let energy := tab_pot.energy dist
    (false, energy)
  else
    (true, 0)

end TabulatedBond

section HarmonicAngle

variable {α : Type} [LinearOrderedField α]

/-- The closure `forceFactor` of `calc_angle_harmonic_force`,
`angle_harmonic.hpp` lines 56-62. -/
def calc_angle_harmonic_force.forceFactor (sqrt acos : α → α)
    (iaparams : Bonded_ia_parameters α) (cos_phi : α) : α :=
  let sin_phi := sqrt (1 - sqr cos_phi)
  let phi := acos (-cos_phi)
  let phi0 := iaparams.p.angle_harmonic.phi0
  let K := iaparams.p.angle_harmonic.bend
  K * (phi - phi0) / sin_phi

/-- Harmonic angle force on the middle and the left particle,
`angle_harmonic.hpp` lines 50-68.  The kernel `calc_angle_generic_force`
(overload with output parameters `f_mid`, `f_left`) is an argument; the result
is the return code together with `f_mid` and `f_left`. -/
def calc_angle_harmonic_force (sqrt acos : α → α)
    (calc_angle_generic_force :
      Vector3d α → Vector3d α → Vector3d α → (α → α) → Bool → Vector3d α × Vector3d α)
    (p_mid p_left p_right : Particle α) (iaparams : Bonded_ia_parameters α) :
    Int × Vector3d α × Vector3d α :=
  let forceFactor := calc_angle_harmonic_force.forceFactor sqrt acos iaparams
  let out := calc_angle_generic_force p_mid.r.p p_left.r.p p_right.r.p forceFactor true
  (0, out.1, out.2)

/-- The closure `forceFactor` of `calc_angle_harmonic_3body_forces`,
`angle_harmonic.hpp` lines 84-90. -/
def calc_angle_harmonic_3body_forces.forceFactor (acos : α → α)
    (iaparams : Bonded_ia_parameters α) (cos_phi sin_phi : α) : α :=
  let phi := acos cos_phi
  let phi0 := iaparams.p.angle_harmonic.phi0
  let K := iaparams.p.angle_harmonic.bend
  K * (phi - phi0) / sin_phi

/-- Harmonic angle forces on all three particles, `angle_harmonic.hpp` lines
79-94.  The kernel `calc_angle_generic_3body_forces` is an argument; the result
is `(f_mid, f_left, f_right)`. -/
def calc_angle_harmonic_3body_forces (acos : α → α)
    (calc_angle_generic_3body_forces :
      Vector3d α → Vector3d α → Vector3d α → (α → α → α) → Bool →
        Vector3d α × Vector3d α × Vector3d α)
    (p_mid p_left p_right : Particle α) (iaparams : Bonded_ia_parameters α) :
    Vector3d α × Vector3d α × Vector3d α :=
  let forceFactor := calc_angle_harmonic_3body_forces.forceFactor acos iaparams
  calc_angle_generic_3body_forces p_mid.r.p p_left.r.p p_right.r.p forceFactor true

/-- Harmonic angle energy, `angle_harmonic.hpp` lines 104-116.  The kernel
`calc_vectors_and_cosine` is an argument; the result is the return code
together with the value written to `*_energy`. -/
def angle_harmonic_energy (acos : α → α)
    (calc_vectors_and_cosine :
      Vector3d α → Vector3d α → Vector3d α → Bool → VectorsAndCosine α)
    (p_mid p_left p_right : Particle α) (iaparams : Bonded_ia_parameters α) : Int × α :=
  let vectors := calc_vectors_and_cosine p_mid.r.p p_left.r.p p_right.r.p true
  let cos_phi := vectors.2.2.2.2
  let phi := acos (-cos_phi)
  let phi0 := iaparams.p.angle_harmonic.phi0
  let K := iaparams.p.angle_harmonic.bend
  (0, 0.5 * K * sqr (phi - phi0))

end HarmonicAngle

section TabulatedAngle

variable {α : Type} [LinearOrderedField α]

/-- The closure `forceFactor` of `calc_angle_3body_tabulated_forces`,
`bonded_tab.hpp` lines 123-133.  The build option `TABANGLEMINUS` is the
Boolean argument. -/
def calc_angle_3body_tabulated_forces.forceFactor (TABANGLEMINUS : Bool) (sqrt acos : α → α)
    (iaparams : Bonded_ia_parameters α) (cos_phi : α) : α :=
  let sin_phi := sqrt (1 - sqr cos_phi)
  let phi := if TABANGLEMINUS then acos (-cos_phi) else acos cos_phi
  let tab_pot := iaparams.p.tab.pot
  let gradient := tab_pot.force phi
  (-gradient) / sin_phi

/-- Tabulated angle forces, `bonded_tab.hpp` lines 117-137.  The kernel
`calc_angle_generic_force` (overload returning the three forces) is an
argument. -/
def calc_angle_3body_tabulated_forces (TABANGLEMINUS : Bool) (sqrt acos : α → α)
    (calc_angle_generic_force :
      Vector3d α → Vector3d α → Vector3d α → (α → α) → Bool →
        Vector3d α × Vector3d α × Vector3d α)
    (p_mid p_left p_right : Particle α) (iaparams : Bonded_ia_parameters α) :
    Vector3d α × Vector3d α × Vector3d α :=
  let forceFactor :=
    calc_angle_3body_tabulated_forces.forceFactor TABANGLEMINUS sqrt acos iaparams
  calc_angle_generic_force p_mid.r.p p_left.r.p p_right.r.p forceFactor true

/-- Tabulated angle force with the broken flag in front, `bonded_tab.hpp` lines
146-154. -/
def calc_tab_angle_force (TABANGLEMINUS : Bool) (sqrt acos : α → α)
    (calc_angle_generic_force :
      Vector3d α → Vector3d α → Vector3d α → (α → α) → Bool →
        Vector3d α × Vector3d α × Vector3d α)
    (p_mid p_left p_right : Particle α) (iaparams : Bonded_ia_parameters α) :
    Bool × Vector3d α × Vector3d α × Vector3d α :=
  let forces :=
    calc_angle_3body_tabulated_forces TABANGLEMINUS sqrt acos calc_angle_generic_force
      p_mid p_left p_right iaparams
  (false, forces)

/-- Tabulated angle energy, `bonded_tab.hpp` lines 166-181. -/
def tab_angle_energy (TABANGLEMINUS : Bool) (acos : α → α)
    (calc_vectors_and_cosine :
      Vector3d α → Vector3d α → Vector3d α → Bool → VectorsAndCosine α)
    (p_mid p_left p_right : Particle α) (iaparams : Bonded_ia_parameters α) : Bool × α :=
  let vectors := calc_vectors_and_cosine p_mid.r.p p_left.r.p p_right.r.p true
  let cos_phi := vectors.2.2.2.2
  let phi := if TABANGLEMINUS then acos (-cos_phi) else acos cos_phi
  let energy := iaparams.p.tab.pot.energy phi
  (false, energy)

end TabulatedAngle

section TabulatedDihedral

variable {α : Type} [LinearOrderedField α]

/-- Tabulated dihedral force, `bonded_tab.hpp` lines 193-232.  The kernel
`calc_dihedral_angle` is an argument, called with the particles in the order
`p1, p2, p3, p4`; the result is the flag and the forces on `p2`, `p1`, `p3`. -/
def calc_tab_dihedral_force
    (calc_dihedral_angle : Particle α → Particle α → Particle α → Particle α → DihedralAngle α)
    (p2 p1 p3 p4 : Particle α) (iaparams : Bonded_ia_parameters α) :
    Bool × Vector3d α × Vector3d α × Vector3d α :=
  let tab_pot := iaparams.p.tab.pot
  let d := calc_dihedral_angle p1 p2 p3 p4
  if d.phi = -1 then
    (false, 0, 0, 0)
  else
    let f1 := (d.v23Xv34 - d.cos_phi • d.v12Xv23) / d.l_v12Xv23
    let f4 := (d.v12Xv23 - d.cos_phi • d.v23Xv34) / d.l_v23Xv34
    let v23Xf1 := vector_product d.v23 f1
    let v23Xf4 := vector_product d.v23 f4
    let v34Xf4 := vector_product d.v34 f4
    let v12Xf1 := vector_product d.v12 f1
    let fac := tab_pot.force d.phi
    let force1 := fac • v23Xf1
    let force2 := fac • (v34Xf4 - v12Xf1 - v23Xf1)
    let force3 := fac • (v12Xf1 - v23Xf4 - v34Xf4)
    (false, force2, force1, force3)

/-- Tabulated dihedral energy, `bonded_tab.hpp` lines 244-259. -/
def tab_dihedral_energy
    (calc_dihedral_angle : Particle α → Particle α → Particle α → Particle α → DihedralAngle α)
    (p2 p1 p3 p4 : Particle α) (iaparams : Bonded_ia_parameters α) : Bool × α :=
  let tab_pot := iaparams.p.tab.pot
  let d := calc_dihedral_angle p1 p2 p3 p4
  let energy := tab_pot.energy d.phi
  (false, energy)

end TabulatedDihedral

section Kernels

variable {α : Type} [LinearOrderedField α]

/-- Modelled from the spec: `calc_vectors_and_cosine` is declared in
`angle_common.hpp`, which is not among the sources.  Spec 4.1,
`angle_cosine_and_sine`: the cosine is the "normalized dot product of the two
bond vectors from the middle particle", clamped to `[-1, 1]` when the flag asks
for it; the auxiliary unit vectors along the left and the right bond and the
two inverse bond lengths fill the other components, the cosine is component 4
as in `std::get<4>`. -/
def calc_vectors_and_cosine (sqrt : α → α) (r_mid r_left r_right : Vector3d α)
    (sanitize_cosine : Bool) : VectorsAndCosine α :=
  let vec1 := r_left - r_mid
  let d1i := 1 / vec1.norm sqrt
  let vec1 := d1i • vec1
  let vec2 := r_right - r_mid
  let d2i := 1 / vec2.norm sqrt
  let vec2 := d2i • vec2
  let cosine := vec1.dot vec2
  let cosine := if sanitize_cosine then max (-1) (min 1 cosine) else cosine
  (vec1, vec2, d1i, d2i, cosine)

/-- Modelled from the spec: `calc_angle_generic_3body_forces` is declared in
`angle_common.hpp`, which is not among the sources.  Spec 4.1: the cosine is
the normalized dot product of the two bond vectors from the middle particle,
clamped to `[-1, 1]`, the sine is `sqrt(1 - cos²)`; the force factor is
projected "orthogonal to each bond vector, scaled by 1/bond-length", such that
`force = -∇U`; the flag selects whether the third particle's force is obtained
"by momentum balance: `f_right = -(f_mid + f_left)`" (flag set) or "computed
independently" (flag not set). -/
def calc_angle_generic_3body_forces (sqrt : α → α) (r_mid r_left r_right : Vector3d α)
    (forceFactor : α → α → α) (flag : Bool) : Vector3d α × Vector3d α × Vector3d α :=
  let vec_left := r_left - r_mid
  let vec_right := r_right - r_mid
  let len_left := vec_left.norm sqrt
  let len_right := vec_right.norm sqrt
  let e_left := vec_left / len_left
  let e_right := vec_right / len_right
  let cos_phi := max (-1) (min 1 (e_left.dot e_right))
  let sin_phi := sqrt (1 - sqr cos_phi)
  let fac := forceFactor cos_phi sin_phi
  let f_left := fac • ((e_right - cos_phi • e_left) / len_left)
  let f_right_calc := fac • ((e_left - cos_phi • e_right) / len_right)
  let f_mid := (-fac) • ((e_right - cos_phi • e_left) / len_left
    + (e_left - cos_phi • e_right) / len_right)
  let f_right := if flag then -(f_mid + f_left) else f_right_calc
  (f_mid, f_left, f_right)

end Kernels

section Divisors

variable {α : Type} [LinearOrderedField α]

/-- The divisors of the divisions executed by `calc_tab_bond_force`, in the
order of execution.  The function body has one division,
`tab_pot->force(dist) / dist` in line 80; it is executed in the branch
`dist < tab_pot->cutoff()` and in no other. -/
def calc_tab_bond_force.divisors (sqrt : α → α) (iaparams : Bonded_ia_parameters α)
    (dx : Vector3d α) : List α :=
  let tab_pot := iaparams.p.tab.pot
  let dist := dx.norm sqrt
  if dist < tab_pot.cutoff then
    [dist]
  else
    []

end Divisors

section TableInterpolation

variable {α : Type} [LinearOrderedField α] [FloorRing α]

/-- Modelled from the spec: the data of the class `TabulatedPotential`, whose
header is not among the sources.  Spec 3: "`minval` (lower bound of sampled
domain), `maxval`/`cutoff` (upper bound), an ordered sequence of energy samples,
an ordered sequence of force samples, sampled at uniform spacing over
[minval, maxval]". -/
structure TabulatedSamples (α : Type) where
  minval : α
  maxval : α
  energy_tab : List α
  force_tab : List α

/-- Modelled from the spec: the spacing of the samples, "derivable from
(maxval-minval)/(length-1)". -/
def TabulatedSamples.spacing (t : TabulatedSamples α) : α :=
  (t.maxval - t.minval) / ((t.force_tab.length : α) - 1)

/-- Modelled from the spec: "linear interpolation between the two bracketing
samples ..., using the fractional offset `(x - minval) / spacing`" (spec 4.2,
in-range regime). -/
def linear_interpolation (table : List α) (spacing minval x : α) : α :=
  let offset := (x - minval) / spacing
  let ind := ⌊offset⌋.toNat
  let frac := offset - (ind : α)
  table.getD ind 0 * (1 - frac) + table.getD (ind + 1) 0 * frac

/-- Modelled from the spec: the member function `TabulatedPotential::force`.
Spec 4.2: below `minval` "extrapolate force linearly using the first two
tabulated force samples' slope"; in range, linear interpolation; at or above
`maxval`, zero force. -/
def TabulatedSamples.force (t : TabulatedSamples α) (x : α) : α :=
  if x < t.minval then
    let slope := (t.force_tab.getD 1 0 - t.force_tab.getD 0 0) / t.spacing
    t.force_tab.getD 0 0 + slope * (x - t.minval)
  else if x < t.maxval then
    linear_interpolation t.force_tab t.spacing t.minval x
  else
    0

/-- Modelled from the spec: the member function `TabulatedPotential::energy`.
Spec 4.2: below `minval` "extrapolate energy quadratically using the first two
force samples and the first energy sample", consistent with the extrapolated
force, where "force is the negative energy gradient" (spec 8, `force = -∇U` in
spec 4.1); in range, linear interpolation; at or above `maxval`, zero
energy. -/
def TabulatedSamples.energy (t : TabulatedSamples α) (x : α) : α :=
  if x < t.minval then
    let slope := (t.force_tab.getD 1 0 - t.force_tab.getD 0 0) / t.spacing
    t.energy_tab.getD 0 0
      - (t.force_tab.getD 0 0 + 0.5 * slope * (x - t.minval)) * (x - t.minval)
  else if x < t.maxval then
    linear_interpolation t.energy_tab t.spacing t.minval x
  else
    0

/-- Modelled from the spec: the table handed to the evaluators, with the
look-ups of the sampled data as member functions. -/
def TabulatedSamples.toTabulatedPotential (t : TabulatedSamples α) : TabulatedPotential α :=
  ⟨t.minval, t.maxval, t.force, t.energy⟩

end TableInterpolation

namespace Observables

variable {α : Type}

/-- The loop of `ParticlePositions::actual_calculate`, `ParticlePositions.hpp`
lines 19-25, started at index `i` with the identifiers `ids[i], ids[i+1], ...`
still to visit.  `partCfg` maps a particle identifier to the particle,
`last_value` is the output vector; the result is the return code (`1` from the
early return, `0` after the last index) and the vector as it is left. -/
def ParticlePositions.actual_calculate.loop (n_part : Int) (partCfg : Int → Particle α) :
    List Int → Nat → List α → Int × List α
  | [], _, last_value => (0, last_value)
  | id :: rest, i, last_value =>
    if id ≥ n_part then
      (1, last_value)
    else
      let last_value := last_value.set (3 * i + 0) (partCfg id).r.p.x
      let last_value := last_value.set (3 * i + 1) (partCfg id).r.p.y
      let last_value := last_value.set (3 * i + 2) (partCfg id).r.p.z
      ParticlePositions.actual_calculate.loop n_part partCfg rest (i + 1) last_value

/-- Member function `ParticlePositions::actual_calculate`,
`ParticlePositions.hpp` lines 14-27.  `sortPartCfg` is the value returned by
the call `sortPartCfg()`; `ids` and `last_value` are the members inherited from
`PidObservable`, `partCfg` and `n_part` the global particle configuration.  The
result is the return code and `last_value` after the call. -/
def ParticlePositions.actual_calculate (sortPartCfg : Bool) (n_part : Int)
    (partCfg : Int → Particle α) (ids : List Int) (last_value : List α) : Int × List α :=
  if !sortPartCfg then
    (-1, last_value)
  else
    ParticlePositions.actual_calculate.loop n_part partCfg ids 0 last_value

end Observables

/-! ## Vector algebra -/

namespace Utils.Vector3d

variable {α : Type}

@[simp]
theorem zero_x [Zero α] : (0 : Vector3d α).x = 0 := rfl

@[simp]
theorem zero_y [Zero α] : (0 : Vector3d α).y = 0 := rfl

@[simp]
theorem zero_z [Zero α] : (0 : Vector3d α).z = 0 := rfl

@[simp]
theorem add_x [Add α] (a b : Vector3d α) : (a + b).x = a.x + b.x := rfl

@[simp]
theorem add_y [Add α] (a b : Vector3d α) : (a + b).y = a.y + b.y := rfl

@[simp]
theorem add_z [Add α] (a b : Vector3d α) : (a + b).z = a.z + b.z := rfl

@[simp]
theorem sub_x [Sub α] (a b : Vector3d α) : (a - b).x = a.x - b.x := rfl

@[simp]
theorem sub_y [Sub α] (a b : Vector3d α) : (a - b).y = a.y - b.y := rfl

@[simp]
theorem sub_z [Sub α] (a b : Vector3d α) : (a - b).z = a.z - b.z := rfl

@[simp]
theorem neg_x [Neg α] (a : Vector3d α) : (-a).x = -a.x := rfl

@[simp]
theorem neg_y [Neg α] (a : Vector3d α) : (-a).y = -a.y := rfl

@[simp]
theorem neg_z [Neg α] (a : Vector3d α) : (-a).z = -a.z := rfl

@[simp]
theorem smul_x [Mul α] (c : α) (a : Vector3d α) : (c • a).x = c * a.x := rfl

@[simp]
theorem smul_y [Mul α] (c : α) (a : Vector3d α) : (c • a).y = c * a.y := rfl

@[simp]
theorem smul_z [Mul α] (c : α) (a : Vector3d α) : (c • a).z = c * a.z := rfl

@[simp]
theorem div_x [Div α] (a : Vector3d α) (c : α) : (a / c).x = a.x / c := rfl

@[simp]
theorem div_y [Div α] (a : Vector3d α) (c : α) : (a / c).y = a.y / c := rfl

@[simp]
theorem div_z [Div α] (a : Vector3d α) (c : α) : (a / c).z = a.z / c := rfl

/-- The squared length scales with the square of the factor. -/
theorem norm2_smul [CommRing α] (c : α) (v : Vector3d α) :
    (c • v).norm2 = c ^ 2 * v.norm2 := by
  simp only [norm2, dot, smul_x, smul_y, smul_z]
  ring

/-- The length scales with the absolute value of the factor. -/
theorem norm_smul (c : ℝ) (v : Vector3d ℝ) :
    (c • v).norm Real.sqrt = |c| * v.norm Real.sqrt := by
  simp only [norm, norm2_smul]
  rw [Real.sqrt_mul (sq_nonneg c), Real.sqrt_sq_eq_abs]

end Utils.Vector3d

/-! ## Tabulated bond -/

/-- C1: for every table and every displacement `dx`, `calc_tab_bond_force` and
`tab_bond_energy` report `broken = true` exactly when the distance `|dx|` is at
least the cutoff; a distance equal to the cutoff is broken, a distance below it
is not, and in the broken case the force is the zero vector and the energy is
zero. -/
theorem tab_bond_broken_iff (iaparams : Bonded_ia_parameters ℝ) (dx : Vector3d ℝ) :
    ((calc_tab_bond_force Real.sqrt iaparams dx).1 = true
        ↔ iaparams.p.tab.pot.cutoff ≤ dx.norm Real.sqrt) ∧
    ((tab_bond_energy Real.sqrt iaparams dx).1 = true
        ↔ iaparams.p.tab.pot.cutoff ≤ dx.norm Real.sqrt) ∧
    (dx.norm Real.sqrt = iaparams.p.tab.pot.cutoff →
        (calc_tab_bond_force Real.sqrt iaparams dx).1 = true ∧
        (tab_bond_energy Real.sqrt iaparams dx).1 = true) ∧
    (dx.norm Real.sqrt < iaparams.p.tab.pot.cutoff →
        (calc_tab_bond_force Real.sqrt iaparams dx).1 = false ∧
        (tab_bond_energy Real.sqrt iaparams dx).1 = false) ∧
    (iaparams.p.tab.pot.cutoff ≤ dx.norm Real.sqrt →
        calc_tab_bond_force Real.sqrt iaparams dx = (true, 0) ∧
        tab_bond_energy Real.sqrt iaparams dx = (true, 0)) := by
  simp only [calc_tab_bond_force, tab_bond_energy]
  by_cases h : dx.norm Real.sqrt < iaparams.p.tab.pot.cutoff
  · have h1 : ¬ iaparams.p.tab.pot.cutoff ≤ dx.norm Real.sqrt := not_le.mpr h
    have h2 : dx.norm Real.sqrt ≠ iaparams.p.tab.pot.cutoff := ne_of_lt h
    simp [h, h1, h2]
  · have h1 : iaparams.p.tab.pot.cutoff ≤ dx.norm Real.sqrt := not_lt.mp h
    simp [h, h1]

/-- C1, boundary scenario: with cutoff `1` the displacement `(1, 0, 0)` has
distance exactly `1`; the bond is broken, force and energy are zero. -/
theorem tab_bond_broken_iff_witness :
    calc_tab_bond_force Real.sqrt ⟨⟨⟨0, 0⟩, ⟨⟨0, 1, fun r => r, fun r => r⟩⟩⟩⟩ ⟨1, 0, 0⟩
        = (true, 0) ∧
    tab_bond_energy Real.sqrt ⟨⟨⟨0, 0⟩, ⟨⟨0, 1, fun r => r, fun r => r⟩⟩⟩⟩ ⟨1, 0, 0⟩
        = (true, 0) :=
  (tab_bond_broken_iff ⟨⟨⟨0, 0⟩, ⟨⟨0, 1, fun r => r, fun r => r⟩⟩⟩⟩ ⟨1, 0, 0⟩).2.2.2.2
    (by simp [TabulatedPotential.cutoff, Vector3d.norm, Vector3d.norm2, Vector3d.dot])

/-- C2: for every displacement `dx` with `0 < |dx| < cutoff`,
`calc_tab_bond_force` reports no break and returns `table.force(|dx|)` times the
unit vector `dx / |dx|`; the force is a multiple of `dx` and its length is
`|table.force(|dx|)|`; `tab_bond_energy` returns exactly `table.energy(|dx|)`. -/
theorem tab_bond_in_range (iaparams : Bonded_ia_parameters ℝ) (dx : Vector3d ℝ)
    (hpos : 0 < dx.norm Real.sqrt)
    (hcut : dx.norm Real.sqrt < iaparams.p.tab.pot.cutoff) :
    calc_tab_bond_force Real.sqrt iaparams dx
        = (false, iaparams.p.tab.pot.force (dx.norm Real.sqrt) • (dx / dx.norm Real.sqrt)) ∧
    (∃ c : ℝ, (calc_tab_bond_force Real.sqrt iaparams dx).2 = c • dx) ∧
    (calc_tab_bond_force Real.sqrt iaparams dx).2.norm Real.sqrt
        = |iaparams.p.tab.pot.force (dx.norm Real.sqrt)| ∧
    tab_bond_energy Real.sqrt iaparams dx
        = (false, iaparams.p.tab.pot.energy (dx.norm Real.sqrt)) := by
  have hne : dx.norm Real.sqrt ≠ 0 := ne_of_gt hpos
  have hforce : calc_tab_bond_force Real.sqrt iaparams dx
      = (false, (iaparams.p.tab.pot.force (dx.norm Real.sqrt) / dx.norm Real.sqrt) • dx) := by
    simp only [calc_tab_bond_force, if_pos hcut]
  refine ⟨?_, ⟨_, congrArg Prod.snd hforce⟩, ?_, ?_⟩
  · rw [hforce]
    congr 1
    ext <;> simp only [Vector3d.smul_x, Vector3d.smul_y, Vector3d.smul_z, Vector3d.div_x,
      Vector3d.div_y, Vector3d.div_z] <;> ring
  · rw [hforce]
    simp only [Vector3d.norm_smul, abs_div, abs_of_pos hpos]
    field_simp
  · simp only [tab_bond_energy, if_pos hcut]

/-- C2 at the displacement `(0, 3, 4)` of length `5`, cutoff `10`, with the
table `force r = 2 r`, `energy r = r²`. -/
theorem tab_bond_in_range_witness :
    calc_tab_bond_force Real.sqrt
        ⟨⟨⟨0, 0⟩, ⟨⟨0, 10, fun r => 2 * r, fun r => r * r⟩⟩⟩⟩ ⟨0, 3, 4⟩
      = (false, (2 * Vector3d.norm Real.sqrt (⟨0, 3, 4⟩ : Vector3d ℝ))
          • ((⟨0, 3, 4⟩ : Vector3d ℝ) / Vector3d.norm Real.sqrt (⟨0, 3, 4⟩ : Vector3d ℝ))) ∧
    tab_bond_energy Real.sqrt
        ⟨⟨⟨0, 0⟩, ⟨⟨0, 10, fun r => 2 * r, fun r => r * r⟩⟩⟩⟩ ⟨0, 3, 4⟩
      = (false, Vector3d.norm Real.sqrt (⟨0, 3, 4⟩ : Vector3d ℝ)
          * Vector3d.norm Real.sqrt (⟨0, 3, 4⟩ : Vector3d ℝ)) := by
  have h5 : Vector3d.norm Real.sqrt (⟨0, 3, 4⟩ : Vector3d ℝ) = 5 := by
    have h25 : (0 : ℝ) * 0 + 3 * 3 + 4 * 4 = 5 ^ 2 := by norm_num
    simp only [Vector3d.norm, Vector3d.norm2, Vector3d.dot, h25]
    exact Real.sqrt_sq (by norm_num)
  have h := tab_bond_in_range ⟨⟨⟨0, 0⟩, ⟨⟨0, 10, fun r => 2 * r, fun r => r * r⟩⟩⟩⟩ ⟨0, 3, 4⟩
    (by rw [h5]; norm_num) (by rw [h5]; norm_num [TabulatedPotential.cutoff])
  exact ⟨h.1, h.2.2.2⟩

/-! ## Harmonic angle -/

/-- The harmonic energy written by `angle_harmonic_energy`, as a function of
the cosine delivered by the kernel. -/
theorem angle_harmonic_energy_eq
    (kernel : Vector3d ℝ → Vector3d ℝ → Vector3d ℝ → Bool → VectorsAndCosine ℝ)
    (p_mid p_left p_right : Particle ℝ) (iaparams : Bonded_ia_parameters ℝ) :
    angle_harmonic_energy Real.arccos kernel p_mid p_left p_right iaparams
      = (0, 0.5 * iaparams.p.angle_harmonic.bend
          * (Real.arccos (-(kernel p_mid.r.p p_left.r.p p_right.r.p true).2.2.2.2)
              - iaparams.p.angle_harmonic.phi0) ^ 2) := by
  simp only [angle_harmonic_energy, sqr, pow_two]

/-- The harmonic law `0.5 K d²` is strictly increasing in `|d|` for `K > 0`. -/
theorem harmonic_lt_iff (K a b : ℝ) (hK : 0 < K) :
    0.5 * K * a ^ 2 < 0.5 * K * b ^ 2 ↔ |a| < |b| := by
  have hc : (0 : ℝ) < 0.5 * K := by positivity
  rw [mul_lt_mul_left hc]
  exact sq_lt_sq

/-- C3: for every parameter record with `bend > 0` and every cosine in `[-1, 1]`
delivered by the kernel, `angle_harmonic_energy` returns code `0` and writes
`0.5 * K * (phi - phi0)²` with `phi = acos(-cos_phi)`; this energy is zero when
`phi = phi0`, is never negative, and is strictly increasing in `|phi - phi0|`:
of two configurations, the one with the larger `|phi - phi0|` has the larger
energy. -/
theorem angle_harmonic_energy_law
    (kernel : Vector3d ℝ → Vector3d ℝ → Vector3d ℝ → Bool → VectorsAndCosine ℝ)
    (p_mid p_left p_right : Particle ℝ) (iaparams : Bonded_ia_parameters ℝ)
    (hK : 0 < iaparams.p.angle_harmonic.bend)
    (hcos : (kernel p_mid.r.p p_left.r.p p_right.r.p true).2.2.2.2 ∈ Set.Icc (-1 : ℝ) 1) :
    angle_harmonic_energy Real.arccos kernel p_mid p_left p_right iaparams
      = (0, 0.5 * iaparams.p.angle_harmonic.bend
          * (Real.arccos (-(kernel p_mid.r.p p_left.r.p p_right.r.p true).2.2.2.2)
              - iaparams.p.angle_harmonic.phi0) ^ 2) ∧
    (Real.arccos (-(kernel p_mid.r.p p_left.r.p p_right.r.p true).2.2.2.2)
        = iaparams.p.angle_harmonic.phi0 →
      (angle_harmonic_energy Real.arccos kernel p_mid p_left p_right iaparams).2 = 0) ∧
    0 ≤ (angle_harmonic_energy Real.arccos kernel p_mid p_left p_right iaparams).2 ∧
    ∀ q_mid q_left q_right : Particle ℝ,
      (kernel q_mid.r.p q_left.r.p q_right.r.p true).2.2.2.2 ∈ Set.Icc (-1 : ℝ) 1 →
      (|Real.arccos (-(kernel p_mid.r.p p_left.r.p p_right.r.p true).2.2.2.2)
            - iaparams.p.angle_harmonic.phi0|
          < |Real.arccos (-(kernel q_mid.r.p q_left.r.p q_right.r.p true).2.2.2.2)
            - iaparams.p.angle_harmonic.phi0|
        ↔ (angle_harmonic_energy Real.arccos kernel p_mid p_left p_right iaparams).2
          < (angle_harmonic_energy Real.arccos kernel q_mid q_left q_right iaparams).2) := by
  refine ⟨angle_harmonic_energy_eq _ _ _ _ _, ?_, ?_, ?_⟩
  · intro h
    rw [angle_harmonic_energy_eq, h]
    simp
  · rw [angle_harmonic_energy_eq]
    have := hcos
    positivity
  · intro q_mid q_left q_right _
    rw [angle_harmonic_energy_eq, angle_harmonic_energy_eq]
    exact (harmonic_lt_iff _ _ _ hK).symm

/-- The cosine of the right angle `p_mid = (0,0,0)`, `p_left = (1,0,0)`,
`p_right = (0,1,0)` is zero. -/
theorem calc_vectors_and_cosine_right_angle :
    (calc_vectors_and_cosine Real.sqrt (⟨0, 0, 0⟩ : Vector3d ℝ) ⟨1, 0, 0⟩ ⟨0, 1, 0⟩
      true).2.2.2.2 = 0 := by
  simp [calc_vectors_and_cosine, Vector3d.norm, Vector3d.norm2, Vector3d.dot]

/-- C3, concrete scenario: `p_mid = (0,0,0)`, `p_left = (1,0,0)`,
`p_right = (0,1,0)`, `bend = 2`, `phi0 = π/2` gives return code `0` and energy
`0`. -/
theorem angle_harmonic_energy_law_witness :
    angle_harmonic_energy Real.arccos (calc_vectors_and_cosine Real.sqrt)
        ⟨⟨⟨0, 0, 0⟩⟩⟩ ⟨⟨⟨1, 0, 0⟩⟩⟩ ⟨⟨⟨0, 1, 0⟩⟩⟩
        ⟨⟨⟨2, Real.pi / 2⟩, ⟨⟨0, 0, fun _ => 0, fun _ => 0⟩⟩⟩⟩ = (0, 0) := by
  have h := angle_harmonic_energy_law (calc_vectors_and_cosine Real.sqrt)
    ⟨⟨⟨0, 0, 0⟩⟩⟩ ⟨⟨⟨1, 0, 0⟩⟩⟩ ⟨⟨⟨0, 1, 0⟩⟩⟩
    ⟨⟨⟨2, Real.pi / 2⟩, ⟨⟨0, 0, fun _ => 0, fun _ => 0⟩⟩⟩⟩
    (by norm_num) (by rw [calc_vectors_and_cosine_right_angle]; simp)
  have h0 := h.2.1 (by rw [calc_vectors_and_cosine_right_angle]; simp)
  have h1 := congrArg Prod.fst h.1
  exact Prod.ext h1 h0

/-- The force factor of `calc_angle_harmonic_force` in closed form. -/
theorem calc_angle_harmonic_force_forceFactor_eq (iaparams : Bonded_ia_parameters ℝ)
    (cos_phi : ℝ) :
    calc_angle_harmonic_force.forceFactor Real.sqrt Real.arccos iaparams cos_phi
      = iaparams.p.angle_harmonic.bend
          * (Real.arccos (-cos_phi) - iaparams.p.angle_harmonic.phi0)
          / Real.sqrt (1 - cos_phi ^ 2) := by
  simp only [calc_angle_harmonic_force.forceFactor, sqr, pow_two]

/-- For a cosine strictly between `-1` and `1` the sine `sqrt(1 - cos²)` is
positive. -/
theorem sqrt_one_sub_sq_pos (c : ℝ) (hlo : -1 < c) (hhi : c < 1) :
    0 < Real.sqrt (1 - c ^ 2) := by
  apply Real.sqrt_pos.mpr
  nlinarith

/-- C4, counterexample: for `bend = 1`, `phi0 = 0` and the cosine `1/2` with
sine `sqrt(1 - (1/2)²)` the force factors of `calc_angle_harmonic_force` and of
`calc_angle_harmonic_3body_forces` are different. -/
theorem harmonic_force_factors_differ :
    calc_angle_harmonic_force.forceFactor Real.sqrt Real.arccos
        ⟨⟨⟨1, 0⟩, ⟨⟨0, 0, fun _ => 0, fun _ => 0⟩⟩⟩⟩ (1 / 2)
      ≠ calc_angle_harmonic_3body_forces.forceFactor Real.arccos
        ⟨⟨⟨1, 0⟩, ⟨⟨0, 0, fun _ => 0, fun _ => 0⟩⟩⟩⟩ (1 / 2)
        (Real.sqrt (1 - (1 / 2) ^ 2)) := by
  have hs : 0 < Real.sqrt (1 - (1 / 2 : ℝ) ^ 2) :=
    sqrt_one_sub_sq_pos (1 / 2) (by norm_num) (by norm_num)
  have hlt : Real.arccos (1 / 2) < Real.pi / 2 :=
    Real.arccos_lt_pi_div_two.mpr (by norm_num)
  rw [calc_angle_harmonic_force_forceFactor_eq]
  simp only [calc_angle_harmonic_3body_forces.forceFactor, Real.arccos_neg, one_mul, sub_zero]
  intro h
  have h2 := (div_left_inj' (ne_of_gt hs)).mp h
  linarith

/-- C4, amended: the force factor of `calc_angle_harmonic_force` is
`K (phi - phi0) / sin(phi)` with `phi = acos(-cos_phi)`; the force factor of
`calc_angle_harmonic_3body_forces` is `K (phi - phi0) / sin_phi` with
`phi = acos(cos_phi)` of the cosine handed to it, which for
`sin_phi = sqrt(1 - cos_phi²)` is `K (phi - phi0) / sin(phi)` at that angle.
Hence for every `cos_phi` in `(-1, 1)` the two factors are equal when the
three-body routine is handed the opposite cosine `-cos_phi` and
`sin_phi = sqrt(1 - cos_phi²)`. -/
theorem harmonic_force_factors (iaparams : Bonded_ia_parameters ℝ) (cos_phi : ℝ)
    (hlo : -1 < cos_phi) (hhi : cos_phi < 1) :
    calc_angle_harmonic_force.forceFactor Real.sqrt Real.arccos iaparams cos_phi
      = iaparams.p.angle_harmonic.bend
          * (Real.arccos (-cos_phi) - iaparams.p.angle_harmonic.phi0)
          / Real.sin (Real.arccos (-cos_phi)) ∧
    (∀ sin_phi : ℝ,
      calc_angle_harmonic_3body_forces.forceFactor Real.arccos iaparams cos_phi sin_phi
        = iaparams.p.angle_harmonic.bend
            * (Real.arccos cos_phi - iaparams.p.angle_harmonic.phi0) / sin_phi) ∧
    calc_angle_harmonic_3body_forces.forceFactor Real.arccos iaparams cos_phi
        (Real.sqrt (1 - cos_phi ^ 2))
      = iaparams.p.angle_harmonic.bend
          * (Real.arccos cos_phi - iaparams.p.angle_harmonic.phi0)
          / Real.sin (Real.arccos cos_phi) ∧
    calc_angle_harmonic_3body_forces.forceFactor Real.arccos iaparams (-cos_phi)
        (Real.sqrt (1 - cos_phi ^ 2))
      = calc_angle_harmonic_force.forceFactor Real.sqrt Real.arccos iaparams cos_phi ∧
    0 < Real.sqrt (1 - cos_phi ^ 2) := by
  refine ⟨?_, fun _ => rfl, ?_, ?_, sqrt_one_sub_sq_pos cos_phi hlo hhi⟩
  · rw [calc_angle_harmonic_force_forceFactor_eq, Real.sin_arccos, neg_sq]
  · simp only [calc_angle_harmonic_3body_forces.forceFactor, Real.sin_arccos]
  · rw [calc_angle_harmonic_force_forceFactor_eq]
    simp only [calc_angle_harmonic_3body_forces.forceFactor]

/-- C4 amended, at `bend = 2`, `phi0 = π/2` and the cosine `1/2`. -/
theorem harmonic_force_factors_witness :
    calc_angle_harmonic_3body_forces.forceFactor Real.arccos
        ⟨⟨⟨2, Real.pi / 2⟩, ⟨⟨0, 0, fun _ => 0, fun _ => 0⟩⟩⟩⟩ (-(1 / 2))
        (Real.sqrt (1 - (1 / 2) ^ 2))
      = calc_angle_harmonic_force.forceFactor Real.sqrt Real.arccos
        ⟨⟨⟨2, Real.pi / 2⟩, ⟨⟨0, 0, fun _ => 0, fun _ => 0⟩⟩⟩⟩ (1 / 2) :=
  (harmonic_force_factors ⟨⟨⟨2, Real.pi / 2⟩, ⟨⟨0, 0, fun _ => 0, fun _ => 0⟩⟩⟩⟩ (1 / 2)
    (by norm_num) (by norm_num)).2.2.2.1

/-- Derivative of the harmonic law `U(φ) = 0.5 K (φ - φ0)²`. -/
theorem harmonic_law_hasDerivAt (K phi0 phi : ℝ) :
    HasDerivAt (fun x : ℝ => 0.5 * K * (x - phi0) ^ 2) (K * (phi - phi0)) phi := by
  have h := (((hasDerivAt_id phi).sub_const phi0).pow 2).const_mul (0.5 * K)
  convert h using 1
  simp only [id_eq, Nat.cast_ofNat, Nat.add_one_sub_one, pow_one, mul_one]
  ring

/-- C5: for every cosine `cos_phi` in `(-1, 1)`, with `phi = acos(-cos_phi)`, the
force factor of `calc_angle_harmonic_force` times `sin(phi)` is `K (phi - phi0)`,
and this is the derivative with respect to the angle of the energy computed by
`angle_harmonic_energy`: along any family of configurations whose kernel cosine
at angle `φ` is `-cos φ` (so that the energy routine sees the angle `φ`), the
energy has derivative `forceFactor * sin(phi)` at `φ = phi`. -/
theorem harmonic_force_is_energy_derivative
    (kernel : ℝ → Vector3d ℝ → Vector3d ℝ → Vector3d ℝ → Bool → VectorsAndCosine ℝ)
    (p_mid p_left p_right : Particle ℝ) (iaparams : Bonded_ia_parameters ℝ) (cos_phi : ℝ)
    (hlo : -1 < cos_phi) (hhi : cos_phi < 1)
    (hkernel : ∀ φ : ℝ,
      (kernel φ p_mid.r.p p_left.r.p p_right.r.p true).2.2.2.2 = -Real.cos φ) :
    calc_angle_harmonic_force.forceFactor Real.sqrt Real.arccos iaparams cos_phi
        * Real.sin (Real.arccos (-cos_phi))
      = iaparams.p.angle_harmonic.bend
          * (Real.arccos (-cos_phi) - iaparams.p.angle_harmonic.phi0) ∧
    HasDerivAt
      (fun φ : ℝ =>
        (angle_harmonic_energy Real.arccos (kernel φ) p_mid p_left p_right iaparams).2)
      (calc_angle_harmonic_force.forceFactor Real.sqrt Real.arccos iaparams cos_phi
        * Real.sin (Real.arccos (-cos_phi)))
      (Real.arccos (-cos_phi)) := by
  have hs : 0 < Real.sqrt (1 - cos_phi ^ 2) := sqrt_one_sub_sq_pos cos_phi hlo hhi
  have hfac : calc_angle_harmonic_force.forceFactor Real.sqrt Real.arccos iaparams cos_phi
        * Real.sin (Real.arccos (-cos_phi))
      = iaparams.p.angle_harmonic.bend
          * (Real.arccos (-cos_phi) - iaparams.p.angle_harmonic.phi0) := by
    rw [calc_angle_harmonic_force_forceFactor_eq, Real.sin_arccos, neg_sq]
    field_simp
  refine ⟨hfac, ?_⟩
  rw [hfac]
  have hpos : 0 < Real.arccos (-cos_phi) := Real.arccos_pos.mpr (by linarith)
  have hpi : Real.arccos (-cos_phi) < Real.pi := by
    refine lt_of_le_of_ne (Real.arccos_le_pi _) (fun h => ?_)
    have := Real.arccos_eq_pi.mp h
    linarith
  refine (harmonic_law_hasDerivAt _ _ _).congr_of_eventuallyEq ?_
  have hmem : Set.Ioo 0 Real.pi ∈ nhds (Real.arccos (-cos_phi)) :=
    Ioo_mem_nhds hpos hpi
  filter_upwards [hmem] with φ hφ
  rw [angle_harmonic_energy_eq, hkernel φ, neg_neg,
    Real.arccos_cos (le_of_lt hφ.1) (le_of_lt hφ.2)]

/-- C5 at `bend = 2`, `phi0 = π/2`, cosine `1/2`, along the family of kernel
results with cosine `-cos φ`. -/
theorem harmonic_force_is_energy_derivative_witness :
    HasDerivAt
      (fun φ : ℝ =>
        (angle_harmonic_energy Real.arccos (fun _ _ _ _ => (0, 0, 0, 0, -Real.cos φ))
          ⟨⟨⟨0, 0, 0⟩⟩⟩ ⟨⟨⟨1, 0, 0⟩⟩⟩ ⟨⟨⟨0, 1, 0⟩⟩⟩
          ⟨⟨⟨2, Real.pi / 2⟩, ⟨⟨0, 0, fun _ => 0, fun _ => 0⟩⟩⟩⟩).2)
      (calc_angle_harmonic_force.forceFactor Real.sqrt Real.arccos
          ⟨⟨⟨2, Real.pi / 2⟩, ⟨⟨0, 0, fun _ => 0, fun _ => 0⟩⟩⟩⟩ (1 / 2)
        * Real.sin (Real.arccos (-(1 / 2))))
      (Real.arccos (-(1 / 2))) :=
  (harmonic_force_is_energy_derivative (fun φ _ _ _ _ => (0, 0, 0, 0, -Real.cos φ))
    ⟨⟨⟨0, 0, 0⟩⟩⟩ ⟨⟨⟨1, 0, 0⟩⟩⟩ ⟨⟨⟨0, 1, 0⟩⟩⟩
    ⟨⟨⟨2, Real.pi / 2⟩, ⟨⟨0, 0, fun _ => 0, fun _ => 0⟩⟩⟩⟩ (1 / 2)
    (by norm_num) (by norm_num) (fun _ => rfl)).2

/-- C6: for every particle triple whose outer particles do not coincide with
the middle one and every harmonic-angle parameter record, the forces `f_mid`,
`f_left`, `f_right` of `calc_angle_harmonic_3body_forces` (with the generic
three-body kernel of the specification, called with the flag set) sum to the
zero vector. -/
theorem angle_harmonic_3body_forces_sum (p_mid p_left p_right : Particle ℝ)
    (iaparams : Bonded_ia_parameters ℝ)
    (hleft : p_left.r.p ≠ p_mid.r.p) (hright : p_right.r.p ≠ p_mid.r.p) :
    (calc_angle_harmonic_3body_forces Real.arccos (calc_angle_generic_3body_forces Real.sqrt)
        p_mid p_left p_right iaparams).1
      + (calc_angle_harmonic_3body_forces Real.arccos
          (calc_angle_generic_3body_forces Real.sqrt) p_mid p_left p_right iaparams).2.1
      + (calc_angle_harmonic_3body_forces Real.arccos
          (calc_angle_generic_3body_forces Real.sqrt) p_mid p_left p_right iaparams).2.2
      = 0 := by
  have _hl := hleft
  have _hr := hright
  simp only [calc_angle_harmonic_3body_forces, calc_angle_generic_3body_forces, if_true]
  ext <;> simp only [Vector3d.add_x, Vector3d.add_y, Vector3d.add_z, Vector3d.neg_x,
    Vector3d.neg_y, Vector3d.neg_z, Vector3d.zero_x, Vector3d.zero_y, Vector3d.zero_z] <;> ring

/-- C6, concrete scenario: `p_mid = (0,0,0)`, `p_left = (1,0,0)`,
`p_right = (0,1,0)`, `bend = 2`, `phi0 = π/2`. -/
theorem angle_harmonic_3body_forces_sum_witness :
    (calc_angle_harmonic_3body_forces Real.arccos (calc_angle_generic_3body_forces Real.sqrt)
        ⟨⟨⟨0, 0, 0⟩⟩⟩ ⟨⟨⟨1, 0, 0⟩⟩⟩ ⟨⟨⟨0, 1, 0⟩⟩⟩
        ⟨⟨⟨2, Real.pi / 2⟩, ⟨⟨0, 0, fun _ => 0, fun _ => 0⟩⟩⟩⟩).1
      + (calc_angle_harmonic_3body_forces Real.arccos
          (calc_angle_generic_3body_forces Real.sqrt)
          ⟨⟨⟨0, 0, 0⟩⟩⟩ ⟨⟨⟨1, 0, 0⟩⟩⟩ ⟨⟨⟨0, 1, 0⟩⟩⟩
          ⟨⟨⟨2, Real.pi / 2⟩, ⟨⟨0, 0, fun _ => 0, fun _ => 0⟩⟩⟩⟩).2.1
      + (calc_angle_harmonic_3body_forces Real.arccos
          (calc_angle_generic_3body_forces Real.sqrt)
          ⟨⟨⟨0, 0, 0⟩⟩⟩ ⟨⟨⟨1, 0, 0⟩⟩⟩ ⟨⟨⟨0, 1, 0⟩⟩⟩
          ⟨⟨⟨2, Real.pi / 2⟩, ⟨⟨0, 0, fun _ => 0, fun _ => 0⟩⟩⟩⟩).2.2
      = 0 :=
  angle_harmonic_3body_forces_sum ⟨⟨⟨0, 0, 0⟩⟩⟩ ⟨⟨⟨1, 0, 0⟩⟩⟩ ⟨⟨⟨0, 1, 0⟩⟩⟩
    ⟨⟨⟨2, Real.pi / 2⟩, ⟨⟨0, 0, fun _ => 0, fun _ => 0⟩⟩⟩⟩
    (by simp [Vector3d.ext_iff]) (by simp [Vector3d.ext_iff])

/-! ## Tabulated dihedral -/

/-- C7: for every dihedral geometry delivered by the kernel with a defined
angle and non-zero norms of the two cross products, and every table, the forces
returned by `calc_tab_dihedral_force` (on `p2`, `p1`, `p3`) sum to
`-fac (v23 × f4)` with `fac = table.force(phi)` and
`f4 = (v12Xv23 - cos_phi v23Xv34) / l_v23Xv34`; together with the force
`fac (v23 × f4)` on the fourth particle the net force is the zero vector. -/
theorem tab_dihedral_force_sum
    (kernel : Particle ℝ → Particle ℝ → Particle ℝ → Particle ℝ → DihedralAngle ℝ)
    (p2 p1 p3 p4 : Particle ℝ) (iaparams : Bonded_ia_parameters ℝ)
    (hphi : (kernel p1 p2 p3 p4).phi ≠ -1)
    (hl1 : (kernel p1 p2 p3 p4).l_v12Xv23 ≠ 0)
    (hl2 : (kernel p1 p2 p3 p4).l_v23Xv34 ≠ 0) :
    (calc_tab_dihedral_force kernel p2 p1 p3 p4 iaparams).2.1
      + (calc_tab_dihedral_force kernel p2 p1 p3 p4 iaparams).2.2.1
      + (calc_tab_dihedral_force kernel p2 p1 p3 p4 iaparams).2.2.2
      = -(iaparams.p.tab.pot.force (kernel p1 p2 p3 p4).phi
          • vector_product (kernel p1 p2 p3 p4).v23
              (((kernel p1 p2 p3 p4).v12Xv23
                  - (kernel p1 p2 p3 p4).cos_phi • (kernel p1 p2 p3 p4).v23Xv34)
                / (kernel p1 p2 p3 p4).l_v23Xv34)) ∧
    (calc_tab_dihedral_force kernel p2 p1 p3 p4 iaparams).2.1
      + (calc_tab_dihedral_force kernel p2 p1 p3 p4 iaparams).2.2.1
      + (calc_tab_dihedral_force kernel p2 p1 p3 p4 iaparams).2.2.2
      + iaparams.p.tab.pot.force (kernel p1 p2 p3 p4).phi
          • vector_product (kernel p1 p2 p3 p4).v23
              (((kernel p1 p2 p3 p4).v12Xv23
                  - (kernel p1 p2 p3 p4).cos_phi • (kernel p1 p2 p3 p4).v23Xv34)
                / (kernel p1 p2 p3 p4).l_v23Xv34)
      = 0 := by
  have _h1 := hl1
  have _h2 := hl2
  simp only [calc_tab_dihedral_force, if_neg hphi]
  constructor <;> ext <;>
    simp only [Vector3d.add_x, Vector3d.add_y, Vector3d.add_z, Vector3d.neg_x, Vector3d.neg_y,
      Vector3d.neg_z, Vector3d.sub_x, Vector3d.sub_y, Vector3d.sub_z, Vector3d.smul_x,
      Vector3d.smul_y, Vector3d.smul_z, Vector3d.zero_x, Vector3d.zero_y, Vector3d.zero_z] <;>
    ring

/-- C7 at the geometry `p1 = (0,0,0)`, `p2 = (1,0,0)`, `p3 = (1,1,0)`,
`p4 = (1,1,1)` with `v12 = (1,0,0)`, `v23 = (0,1,0)`, `v34 = (0,0,1)`, cross
products `(0,0,1)` and `(1,0,0)` of norm `1`, `cos_phi = 0`, `phi = π/2`, and a
table with constant force `3`: the three forces sum to `(-3, 0, 0)`. -/
theorem tab_dihedral_force_sum_witness :
    (calc_tab_dihedral_force
        (fun _ _ _ _ =>
          ⟨⟨1, 0, 0⟩, ⟨0, 1, 0⟩, ⟨0, 0, 1⟩, ⟨0, 0, 1⟩, 1, ⟨1, 0, 0⟩, 1, 0, Real.pi / 2⟩)
        ⟨⟨⟨1, 0, 0⟩⟩⟩ ⟨⟨⟨0, 0, 0⟩⟩⟩ ⟨⟨⟨1, 1, 0⟩⟩⟩ ⟨⟨⟨1, 1, 1⟩⟩⟩
        ⟨⟨⟨0, 0⟩, ⟨⟨0, 4, fun _ => 3, fun _ => 0⟩⟩⟩⟩).2.1
      + (calc_tab_dihedral_force
        (fun _ _ _ _ =>
          ⟨⟨1, 0, 0⟩, ⟨0, 1, 0⟩, ⟨0, 0, 1⟩, ⟨0, 0, 1⟩, 1, ⟨1, 0, 0⟩, 1, 0, Real.pi / 2⟩)
        ⟨⟨⟨1, 0, 0⟩⟩⟩ ⟨⟨⟨0, 0, 0⟩⟩⟩ ⟨⟨⟨1, 1, 0⟩⟩⟩ ⟨⟨⟨1, 1, 1⟩⟩⟩
        ⟨⟨⟨0, 0⟩, ⟨⟨0, 4, fun _ => 3, fun _ => 0⟩⟩⟩⟩).2.2.1
      + (calc_tab_dihedral_force
        (fun _ _ _ _ =>
          ⟨⟨1, 0, 0⟩, ⟨0, 1, 0⟩, ⟨0, 0, 1⟩, ⟨0, 0, 1⟩, 1, ⟨1, 0, 0⟩, 1, 0, Real.pi / 2⟩)
        ⟨⟨⟨1, 0, 0⟩⟩⟩ ⟨⟨⟨0, 0, 0⟩⟩⟩ ⟨⟨⟨1, 1, 0⟩⟩⟩ ⟨⟨⟨1, 1, 1⟩⟩⟩
        ⟨⟨⟨0, 0⟩, ⟨⟨0, 4, fun _ => 3, fun _ => 0⟩⟩⟩⟩).2.2.2
      = (⟨-3, 0, 0⟩ : Vector3d ℝ) := by
  have hphi : Real.pi / 2 ≠ -1 := by
    have := Real.pi_pos
    intro h
    linarith
  have h := (tab_dihedral_force_sum
    (fun _ _ _ _ =>
      ⟨⟨1, 0, 0⟩, ⟨0, 1, 0⟩, ⟨0, 0, 1⟩, ⟨0, 0, 1⟩, 1, ⟨1, 0, 0⟩, 1, 0, Real.pi / 2⟩)
    ⟨⟨⟨1, 0, 0⟩⟩⟩ ⟨⟨⟨0, 0, 0⟩⟩⟩ ⟨⟨⟨1, 1, 0⟩⟩⟩ ⟨⟨⟨1, 1, 1⟩⟩⟩
    ⟨⟨⟨0, 0⟩, ⟨⟨0, 4, fun _ => 3, fun _ => 0⟩⟩⟩⟩
    hphi one_ne_zero one_ne_zero).1
  rw [h]
  ext <;> simp [vector_product]

/-- C8: whenever the dihedral kernel reports the undefined angle `phi = -1.0`,
`calc_tab_dihedral_force` returns the flag `false` and the zero vector for all
three forces, for every table and for every value of the other kernel outputs,
zero cross-product norms included: the result depends neither on the table nor
on the norms. -/
theorem tab_dihedral_force_undefined
    (kernel : Particle ℝ → Particle ℝ → Particle ℝ → Particle ℝ → DihedralAngle ℝ)
    (p2 p1 p3 p4 : Particle ℝ) (iaparams : Bonded_ia_parameters ℝ)
    (hphi : (kernel p1 p2 p3 p4).phi = -1) :
    calc_tab_dihedral_force kernel p2 p1 p3 p4 iaparams = (false, 0, 0, 0) := by
  simp only [calc_tab_dihedral_force, if_pos hphi]

/-- C8 at four collinear particles `(0,0,0)`, `(1,0,0)`, `(2,0,0)`, `(3,0,0)`:
both cross products and their norms are zero, the kernel reports `phi = -1`, and
the forces are zero although the table force is `3` everywhere. -/
theorem tab_dihedral_force_undefined_witness :
    calc_tab_dihedral_force
        (fun _ _ _ _ =>
          ⟨⟨1, 0, 0⟩, ⟨1, 0, 0⟩, ⟨1, 0, 0⟩, ⟨0, 0, 0⟩, 0, ⟨0, 0, 0⟩, 0, 0, -1⟩)
        ⟨⟨⟨1, 0, 0⟩⟩⟩ ⟨⟨⟨0, 0, 0⟩⟩⟩ ⟨⟨⟨2, 0, 0⟩⟩⟩ ⟨⟨⟨3, 0, 0⟩⟩⟩
        ⟨⟨⟨0, 0⟩, ⟨⟨0, 4, fun _ => 3, fun _ => 0⟩⟩⟩⟩
      = (false, (0 : Vector3d ℝ), (0 : Vector3d ℝ), (0 : Vector3d ℝ)) :=
  tab_dihedral_force_undefined
    (fun _ _ _ _ => ⟨⟨1, 0, 0⟩, ⟨1, 0, 0⟩, ⟨1, 0, 0⟩, ⟨0, 0, 0⟩, 0, ⟨0, 0, 0⟩, 0, 0, -1⟩)
    ⟨⟨⟨1, 0, 0⟩⟩⟩ ⟨⟨⟨0, 0, 0⟩⟩⟩ ⟨⟨⟨2, 0, 0⟩⟩⟩ ⟨⟨⟨3, 0, 0⟩⟩⟩
    ⟨⟨⟨0, 0⟩, ⟨⟨0, 4, fun _ => 3, fun _ => 0⟩⟩⟩⟩ rfl

/-- C9, counterexample: for four collinear particles the kernel reports
`phi = -1`; with a table whose energy is `1` everywhere `tab_dihedral_energy`
returns the flag `false` and the energy `1`, not zero. -/
theorem tab_dihedral_energy_undefined_nonzero :
    tab_dihedral_energy
        (fun _ _ _ _ =>
          ⟨⟨1, 0, 0⟩, ⟨1, 0, 0⟩, ⟨1, 0, 0⟩, ⟨0, 0, 0⟩, 0, ⟨0, 0, 0⟩, 0, 0, -1⟩)
        ⟨⟨⟨1, 0, 0⟩⟩⟩ ⟨⟨⟨0, 0, 0⟩⟩⟩ ⟨⟨⟨2, 0, 0⟩⟩⟩ ⟨⟨⟨3, 0, 0⟩⟩⟩
        ⟨⟨⟨0, 0⟩, ⟨⟨0, 4, fun _ => 0, fun _ => 1⟩⟩⟩⟩
      = (false, (1 : ℝ)) ∧
    (tab_dihedral_energy
        (fun _ _ _ _ =>
          ⟨⟨1, 0, 0⟩, ⟨1, 0, 0⟩, ⟨1, 0, 0⟩, ⟨0, 0, 0⟩, 0, ⟨0, 0, 0⟩, 0, 0, -1⟩)
        ⟨⟨⟨1, 0, 0⟩⟩⟩ ⟨⟨⟨0, 0, 0⟩⟩⟩ ⟨⟨⟨2, 0, 0⟩⟩⟩ ⟨⟨⟨3, 0, 0⟩⟩⟩
        ⟨⟨⟨0, 0⟩, ⟨⟨0, 4, fun _ => 0, fun _ => 1⟩⟩⟩⟩).2 ≠ (0 : ℝ) := by
  constructor
  · rfl
  · simp [tab_dihedral_energy]

/-- C9, amended: whenever the dihedral kernel reports the undefined angle
`phi = -1.0`, `tab_dihedral_energy` returns the flag `false`, for every table:
it raises no flag. -/
theorem tab_dihedral_energy_undefined_flag
    (kernel : Particle ℝ → Particle ℝ → Particle ℝ → Particle ℝ → DihedralAngle ℝ)
    (p2 p1 p3 p4 : Particle ℝ) (iaparams : Bonded_ia_parameters ℝ)
    (hphi : (kernel p1 p2 p3 p4).phi = -1) :
    (tab_dihedral_energy kernel p2 p1 p3 p4 iaparams).1 = false := by
  have _h := hphi
  rfl

/-- C9 amended, at four collinear particles. -/
theorem tab_dihedral_energy_undefined_flag_witness :
    (tab_dihedral_energy
        (fun _ _ _ _ =>
          ⟨⟨1, 0, 0⟩, ⟨1, 0, 0⟩, ⟨1, 0, 0⟩, ⟨0, 0, 0⟩, 0, ⟨0, 0, 0⟩, 0, 0, -1⟩)
        ⟨⟨⟨1, 0, 0⟩⟩⟩ ⟨⟨⟨0, 0, 0⟩⟩⟩ ⟨⟨⟨2, 0, 0⟩⟩⟩ ⟨⟨⟨3, 0, 0⟩⟩⟩
        ⟨⟨⟨0, 0⟩, ⟨⟨0, 4, fun _ => 0, fun (r : ℝ) => r⟩⟩⟩⟩).1 = false :=
  tab_dihedral_energy_undefined_flag
    (fun _ _ _ _ => ⟨⟨1, 0, 0⟩, ⟨1, 0, 0⟩, ⟨1, 0, 0⟩, ⟨0, 0, 0⟩, 0, ⟨0, 0, 0⟩, 0, 0, -1⟩)
    ⟨⟨⟨1, 0, 0⟩⟩⟩ ⟨⟨⟨0, 0, 0⟩⟩⟩ ⟨⟨⟨2, 0, 0⟩⟩⟩ ⟨⟨⟨3, 0, 0⟩⟩⟩
    ⟨⟨⟨0, 0⟩, ⟨⟨0, 4, fun _ => 0, fun (r : ℝ) => r⟩⟩⟩⟩ rfl

/-! ## Out-of-range angles in the tabulated angle and dihedral evaluators -/

/-- C10, counterexample: for the right angle `p_mid = (0,0,0)`,
`p_left = (1,0,0)`, `p_right = (0,1,0)` the angle is `phi = acos(0) = π/2`, above
the upper bound `maxval = 1` of the table; with a table whose energy is `1`
everywhere `tab_angle_energy` returns the flag `false` and the energy `1`. -/
theorem tab_angle_energy_above_maxval :
    (1 : ℝ) ≤ Real.arccos
        (calc_vectors_and_cosine Real.sqrt (⟨0, 0, 0⟩ : Vector3d ℝ) ⟨1, 0, 0⟩ ⟨0, 1, 0⟩
          true).2.2.2.2 ∧
    tab_angle_energy false Real.arccos (calc_vectors_and_cosine Real.sqrt)
        ⟨⟨⟨0, 0, 0⟩⟩⟩ ⟨⟨⟨1, 0, 0⟩⟩⟩ ⟨⟨⟨0, 1, 0⟩⟩⟩
        ⟨⟨⟨0, 0⟩, ⟨⟨0, 1, fun _ => 0, fun _ => 1⟩⟩⟩⟩
      = (false, (1 : ℝ)) := by
  constructor
  · rw [calc_vectors_and_cosine_right_angle, Real.arccos_zero]
    have := Real.pi_gt_three
    linarith
  · rfl

/-- C10, amended: the tabulated angle and dihedral evaluators
`calc_tab_angle_force`, `tab_angle_energy`, `calc_tab_dihedral_force` and
`tab_dihedral_energy` report `broken = false` for every input, also when the
internal coordinate `phi` is at or above the table's `maxval`; the two energy
evaluators return the table energy looked up at `phi`. -/
theorem tab_angle_dihedral_never_broken (TABANGLEMINUS : Bool)
    (calc_angle_generic_force :
      Vector3d ℝ → Vector3d ℝ → Vector3d ℝ → (ℝ → ℝ) → Bool →
        Vector3d ℝ × Vector3d ℝ × Vector3d ℝ)
    (cosine_kernel : Vector3d ℝ → Vector3d ℝ → Vector3d ℝ → Bool → VectorsAndCosine ℝ)
    (dihedral_kernel : Particle ℝ → Particle ℝ → Particle ℝ → Particle ℝ → DihedralAngle ℝ)
    (p_mid p_left p_right p1 p2 p3 p4 : Particle ℝ) (iaparams : Bonded_ia_parameters ℝ) :
    (calc_tab_angle_force TABANGLEMINUS Real.sqrt Real.arccos calc_angle_generic_force
        p_mid p_left p_right iaparams).1 = false ∧
    (tab_angle_energy TABANGLEMINUS Real.arccos cosine_kernel p_mid p_left p_right
        iaparams).1 = false ∧
    (calc_tab_dihedral_force dihedral_kernel p2 p1 p3 p4 iaparams).1 = false ∧
    (tab_dihedral_energy dihedral_kernel p2 p1 p3 p4 iaparams).1 = false ∧
    (tab_angle_energy TABANGLEMINUS Real.arccos cosine_kernel p_mid p_left p_right
        iaparams).2
      = iaparams.p.tab.pot.energy
          (if TABANGLEMINUS
            then Real.arccos (-(cosine_kernel p_mid.r.p p_left.r.p p_right.r.p true).2.2.2.2)
            else Real.arccos (cosine_kernel p_mid.r.p p_left.r.p p_right.r.p true).2.2.2.2) ∧
    (tab_dihedral_energy dihedral_kernel p2 p1 p3 p4 iaparams).2
      = iaparams.p.tab.pot.energy (dihedral_kernel p1 p2 p3 p4).phi := by
  refine ⟨rfl, rfl, ?_, rfl, rfl, rfl⟩
  simp only [calc_tab_dihedral_force]
  split <;> rfl

/-! ## The flag returned by the tabulated bond energy -/

/-- The length of the displacement `(0, 3, 4)` is `5`. -/
theorem norm_zero_three_four :
    Vector3d.norm Real.sqrt (⟨0, 3, 4⟩ : Vector3d ℝ) = 5 := by
  have h25 : (0 : ℝ) * 0 + 3 * 3 + 4 * 4 = 5 ^ 2 := by norm_num
  simp only [Vector3d.norm, Vector3d.norm2, Vector3d.dot, h25]
  exact Real.sqrt_sq (by norm_num)

/-- C11, counterexample: with cutoff `2` and the displacement `(0, 3, 4)` of
length `5`, `tab_bond_energy` returns `true` as the first component, not
`false`. -/
theorem tab_bond_energy_flag_true :
    (tab_bond_energy Real.sqrt ⟨⟨⟨0, 0⟩, ⟨⟨0, 2, fun r => r, fun r => r⟩⟩⟩⟩
        (⟨0, 3, 4⟩ : Vector3d ℝ)).1 ≠ false := by
  simp only [tab_bond_energy, norm_zero_three_four, TabulatedPotential.cutoff]
  norm_num

/-- C11, amended: for every parameter record and every displacement `dx`,
`tab_bond_energy` returns `false` together with the energy `table.energy(|dx|)`
when `|dx|` is below the cutoff, and `true` together with `0.0` otherwise. -/
theorem tab_bond_energy_result (iaparams : Bonded_ia_parameters ℝ) (dx : Vector3d ℝ) :
    tab_bond_energy Real.sqrt iaparams dx
      = if dx.norm Real.sqrt < iaparams.p.tab.pot.cutoff
          then (false, iaparams.p.tab.pot.energy (dx.norm Real.sqrt))
          else (true, 0) := by
  simp only [tab_bond_energy]

/-! ## Tabulated angle -/

/-- The force factor of `calc_angle_3body_tabulated_forces` in closed form. -/
theorem calc_angle_3body_tabulated_forces_forceFactor_eq (TABANGLEMINUS : Bool)
    (iaparams : Bonded_ia_parameters ℝ) (cos_phi : ℝ) :
    calc_angle_3body_tabulated_forces.forceFactor TABANGLEMINUS Real.sqrt Real.arccos
        iaparams cos_phi
      = -iaparams.p.tab.pot.force
            (if TABANGLEMINUS then Real.arccos (-cos_phi) else Real.arccos cos_phi)
          / Real.sqrt (1 - cos_phi ^ 2) := by
  simp only [calc_angle_3body_tabulated_forces.forceFactor, sqr, pow_two]

/-- The sine of the angle used by the angle laws, under either sign convention,
is `sqrt(1 - cos_phi²)`. -/
theorem sin_angle_eq (TABANGLEMINUS : Bool) (cos_phi : ℝ) :
    Real.sin (if TABANGLEMINUS then Real.arccos (-cos_phi) else Real.arccos cos_phi)
      = Real.sqrt (1 - cos_phi ^ 2) := by
  cases TABANGLEMINUS
  · simp only [Bool.false_eq_true, if_false, Real.sin_arccos]
  · simp only [if_true, Real.sin_arccos, neg_sq]

/-- C12: for every cosine `cos_phi` in `(-1, 1)` delivered by the kernel and
either setting of `TABANGLEMINUS`, with `phi = acos(-cos_phi)` (option set) or
`phi = acos(cos_phi)` (option not set): the force factor of
`calc_angle_3body_tabulated_forces` is `-table.force(phi) / sin(phi)`, where
`sin(phi) = sqrt(1 - cos_phi²)` is positive, and `tab_angle_energy` looks up
the energy table at the same `phi`. -/
theorem tab_angle_force_factor (TABANGLEMINUS : Bool)
    (kernel : Vector3d ℝ → Vector3d ℝ → Vector3d ℝ → Bool → VectorsAndCosine ℝ)
    (p_mid p_left p_right : Particle ℝ) (iaparams : Bonded_ia_parameters ℝ) (cos_phi : ℝ)
    (hlo : -1 < cos_phi) (hhi : cos_phi < 1)
    (hkernel : (kernel p_mid.r.p p_left.r.p p_right.r.p true).2.2.2.2 = cos_phi) :
    calc_angle_3body_tabulated_forces.forceFactor TABANGLEMINUS Real.sqrt Real.arccos
        iaparams cos_phi
      = -iaparams.p.tab.pot.force
            (if TABANGLEMINUS then Real.arccos (-cos_phi) else Real.arccos cos_phi)
          / Real.sin
            (if TABANGLEMINUS then Real.arccos (-cos_phi) else Real.arccos cos_phi) ∧
    Real.sin (if TABANGLEMINUS then Real.arccos (-cos_phi) else Real.arccos cos_phi)
      = Real.sqrt (1 - cos_phi ^ 2) ∧
    0 < Real.sqrt (1 - cos_phi ^ 2) ∧
    tab_angle_energy TABANGLEMINUS Real.arccos kernel p_mid p_left p_right iaparams
      = (false, iaparams.p.tab.pot.energy
          (if TABANGLEMINUS then Real.arccos (-cos_phi) else Real.arccos cos_phi)) := by
  refine ⟨?_, sin_angle_eq _ _, sqrt_one_sub_sq_pos cos_phi hlo hhi, ?_⟩
  · rw [calc_angle_3body_tabulated_forces_forceFactor_eq, sin_angle_eq]
  · simp only [tab_angle_energy, hkernel]

/-- C12 for the right angle `p_mid = (0,0,0)`, `p_left = (1,0,0)`,
`p_right = (0,1,0)` (cosine `0`) with the option `TABANGLEMINUS` set and the
table `force φ = 2 φ`, `energy φ = φ²`. -/
theorem tab_angle_force_factor_witness :
    calc_angle_3body_tabulated_forces.forceFactor true Real.sqrt Real.arccos
        ⟨⟨⟨0, 0⟩, ⟨⟨0, 4, fun r => 2 * r, fun r => r * r⟩⟩⟩⟩ 0
      = -(2 * Real.arccos (-0)) / Real.sin (Real.arccos (-0)) ∧
    tab_angle_energy true Real.arccos (calc_vectors_and_cosine Real.sqrt)
        ⟨⟨⟨0, 0, 0⟩⟩⟩ ⟨⟨⟨1, 0, 0⟩⟩⟩ ⟨⟨⟨0, 1, 0⟩⟩⟩
        ⟨⟨⟨0, 0⟩, ⟨⟨0, 4, fun r => 2 * r, fun r => r * r⟩⟩⟩⟩
      = (false, Real.arccos (-0) * Real.arccos (-0)) := by
  have h := tab_angle_force_factor true (calc_vectors_and_cosine Real.sqrt)
    ⟨⟨⟨0, 0, 0⟩⟩⟩ ⟨⟨⟨1, 0, 0⟩⟩⟩ ⟨⟨⟨0, 1, 0⟩⟩⟩
    ⟨⟨⟨0, 0⟩, ⟨⟨0, 4, fun r => 2 * r, fun r => r * r⟩⟩⟩⟩ 0
    (by norm_num) (by norm_num) calc_vectors_and_cosine_right_angle
  exact ⟨h.1, h.2.2.2⟩

/-! ## Range of the bond angle and the divisor `sin_phi` -/

/-- C16: for every cosine `cos_phi` in `[-1, 1]` delivered by the kernel, the
angles `acos(-cos_phi)` and `acos(cos_phi)` lie in `[0, π]`, and these are the
angles used by `angle_harmonic_energy`, by the two harmonic force factors, by
the force factor of `calc_angle_3body_tabulated_forces` and by
`tab_angle_energy`. -/
theorem bond_angle_in_range (TABANGLEMINUS : Bool)
    (kernel : Vector3d ℝ → Vector3d ℝ → Vector3d ℝ → Bool → VectorsAndCosine ℝ)
    (p_mid p_left p_right : Particle ℝ) (iaparams : Bonded_ia_parameters ℝ) (cos_phi : ℝ)
    (hlo : -1 ≤ cos_phi) (hhi : cos_phi ≤ 1)
    (hkernel : (kernel p_mid.r.p p_left.r.p p_right.r.p true).2.2.2.2 = cos_phi) :
    (0 ≤ Real.arccos (-cos_phi) ∧ Real.arccos (-cos_phi) ≤ Real.pi) ∧
    (0 ≤ Real.arccos cos_phi ∧ Real.arccos cos_phi ≤ Real.pi) ∧
    (0 ≤ (if TABANGLEMINUS then Real.arccos (-cos_phi) else Real.arccos cos_phi) ∧
      (if TABANGLEMINUS then Real.arccos (-cos_phi) else Real.arccos cos_phi) ≤ Real.pi) ∧
    angle_harmonic_energy Real.arccos kernel p_mid p_left p_right iaparams
      = (0, 0.5 * iaparams.p.angle_harmonic.bend
          * (Real.arccos (-cos_phi) - iaparams.p.angle_harmonic.phi0) ^ 2) ∧
    calc_angle_harmonic_force.forceFactor Real.sqrt Real.arccos iaparams cos_phi
      = iaparams.p.angle_harmonic.bend
          * (Real.arccos (-cos_phi) - iaparams.p.angle_harmonic.phi0)
          / Real.sqrt (1 - cos_phi ^ 2) ∧
    (∀ sin_phi : ℝ,
      calc_angle_harmonic_3body_forces.forceFactor Real.arccos iaparams cos_phi sin_phi
        = iaparams.p.angle_harmonic.bend
            * (Real.arccos cos_phi - iaparams.p.angle_harmonic.phi0) / sin_phi) ∧
    calc_angle_3body_tabulated_forces.forceFactor TABANGLEMINUS Real.sqrt Real.arccos
        iaparams cos_phi
      = -iaparams.p.tab.pot.force
            (if TABANGLEMINUS then Real.arccos (-cos_phi) else Real.arccos cos_phi)
          / Real.sqrt (1 - cos_phi ^ 2) ∧
    tab_angle_energy TABANGLEMINUS Real.arccos kernel p_mid p_left p_right iaparams
      = (false, iaparams.p.tab.pot.energy
          (if TABANGLEMINUS then Real.arccos (-cos_phi) else Real.arccos cos_phi)) := by
  have _hlo := hlo
  have _hhi := hhi
  refine ⟨⟨Real.arccos_nonneg _, Real.arccos_le_pi _⟩,
    ⟨Real.arccos_nonneg _, Real.arccos_le_pi _⟩, ?_, ?_,
    calc_angle_harmonic_force_forceFactor_eq _ _, fun _ => rfl,
    calc_angle_3body_tabulated_forces_forceFactor_eq _ _ _, ?_⟩
  · cases TABANGLEMINUS
    · exact ⟨Real.arccos_nonneg _, Real.arccos_le_pi _⟩
    · exact ⟨Real.arccos_nonneg _, Real.arccos_le_pi _⟩
  · rw [angle_harmonic_energy_eq, hkernel]
  · simp only [tab_angle_energy, hkernel]

/-- C16 for the right angle `p_mid = (0,0,0)`, `p_left = (1,0,0)`,
`p_right = (0,1,0)`, whose cosine is `0`: the angle `acos(-0)` lies in
`[0, π]`. -/
theorem bond_angle_in_range_witness :
    0 ≤ Real.arccos (-0) ∧ Real.arccos (-0) ≤ Real.pi :=
  (bond_angle_in_range true (calc_vectors_and_cosine Real.sqrt)
    ⟨⟨⟨0, 0, 0⟩⟩⟩ ⟨⟨⟨1, 0, 0⟩⟩⟩ ⟨⟨⟨0, 1, 0⟩⟩⟩
    ⟨⟨⟨2, Real.pi / 2⟩, ⟨⟨0, 4, fun r => 2 * r, fun r => r * r⟩⟩⟩⟩ 0
    (by norm_num) (by norm_num) calc_vectors_and_cosine_right_angle).1

/-- C17: the divisor of the harmonic and of the tabulated angle force factor is
`sin_phi = sqrt(1 - cos_phi²)`.  For every `cos_phi` in `[-1, 1]` the argument
`1 - cos_phi²` of the square root is non-negative, the divisor is zero exactly
when `cos_phi` is `1` or `-1`, and it is strictly positive when
`|cos_phi| < 1`. -/
theorem sin_phi_divisor (TABANGLEMINUS : Bool) (iaparams : Bonded_ia_parameters ℝ)
    (cos_phi : ℝ) (hlo : -1 ≤ cos_phi) (hhi : cos_phi ≤ 1) :
    calc_angle_harmonic_force.forceFactor Real.sqrt Real.arccos iaparams cos_phi
      = iaparams.p.angle_harmonic.bend
          * (Real.arccos (-cos_phi) - iaparams.p.angle_harmonic.phi0)
          / Real.sqrt (1 - cos_phi ^ 2) ∧
    calc_angle_3body_tabulated_forces.forceFactor TABANGLEMINUS Real.sqrt Real.arccos
        iaparams cos_phi
      = -iaparams.p.tab.pot.force
            (if TABANGLEMINUS then Real.arccos (-cos_phi) else Real.arccos cos_phi)
          / Real.sqrt (1 - cos_phi ^ 2) ∧
    0 ≤ 1 - cos_phi ^ 2 ∧
    (Real.sqrt (1 - cos_phi ^ 2) = 0 ↔ cos_phi = 1 ∨ cos_phi = -1) ∧
    (|cos_phi| < 1 → 0 < Real.sqrt (1 - cos_phi ^ 2)) := by
  have hnn : 0 ≤ 1 - cos_phi ^ 2 := by nlinarith
  refine ⟨calc_angle_harmonic_force_forceFactor_eq _ _,
    calc_angle_3body_tabulated_forces_forceFactor_eq _ _ _, hnn, ?_, ?_⟩
  · rw [Real.sqrt_eq_zero hnn]
    constructor
    · intro h
      have h2 : (cos_phi - 1) * (cos_phi + 1) = 0 := by linarith
      rcases mul_eq_zero.mp h2 with h3 | h3
      · left
        linarith
      · right
        linarith
    · rintro (h | h) <;> rw [h] <;> norm_num
  · intro h
    exact sqrt_one_sub_sq_pos cos_phi (abs_lt.mp h).1 (abs_lt.mp h).2

/-- C17 at `cos_phi = 1/2`: the divisor `sqrt(1 - (1/2)²)` is positive. -/
theorem sin_phi_divisor_witness : 0 < Real.sqrt (1 - (1 / 2 : ℝ) ^ 2) :=
  (sin_phi_divisor false ⟨⟨⟨2, Real.pi / 2⟩, ⟨⟨0, 4, fun r => 2 * r, fun r => r * r⟩⟩⟩⟩
    (1 / 2) (by norm_num) (by norm_num)).2.2.2.2
    (by rw [abs_of_pos (by norm_num : (0 : ℝ) < 1 / 2)]; norm_num)

/-! ## Reflection of the displacement of a tabulated bond -/

/-- The length of a vector does not change under negation. -/
theorem norm_neg_eq (sqrt : ℝ → ℝ) (dx : Vector3d ℝ) : (-dx).norm sqrt = dx.norm sqrt := by
  simp only [Vector3d.norm, Vector3d.norm2, Vector3d.dot, Vector3d.neg_x, Vector3d.neg_y,
    Vector3d.neg_z, neg_mul_neg]

/-- C18: for every table and every displacement `dx`, `tab_bond_energy` gives
the same result (flag and energy) for `-dx` as for `dx`, and
`calc_tab_bond_force` gives for `-dx` the same flag and the negated force. -/
theorem tab_bond_reflect (iaparams : Bonded_ia_parameters ℝ) (dx : Vector3d ℝ) :
    tab_bond_energy Real.sqrt iaparams (-dx) = tab_bond_energy Real.sqrt iaparams dx ∧
    (calc_tab_bond_force Real.sqrt iaparams (-dx)).1
      = (calc_tab_bond_force Real.sqrt iaparams dx).1 ∧
    (calc_tab_bond_force Real.sqrt iaparams (-dx)).2
      = -(calc_tab_bond_force Real.sqrt iaparams dx).2 := by
  simp only [tab_bond_energy, calc_tab_bond_force, norm_neg_eq]
  by_cases h : dx.norm Real.sqrt < iaparams.p.tab.pot.cutoff
  · simp only [if_pos h, true_and]
    ext <;> simp only [Vector3d.smul_x, Vector3d.smul_y, Vector3d.smul_z, Vector3d.neg_x,
      Vector3d.neg_y, Vector3d.neg_z] <;> ring
  · simp only [if_neg h, true_and]
    ext <;> simp

/-! ## Extrapolation below the tabulated range -/

/-- Derivative of the quadratic `e0 - (f0 + 0.5 b (r - m)) (r - m)`. -/
theorem quadratic_extrapolation_hasDerivAt (e0 f0 b m x : ℝ) :
    HasDerivAt (fun r : ℝ => e0 - (f0 + 0.5 * b * (r - m)) * (r - m))
      (-(f0 + b * (x - m))) x := by
  have h1 : HasDerivAt (fun r : ℝ => r - m) 1 x := (hasDerivAt_id x).sub_const m
  have h2 : HasDerivAt (fun r : ℝ => f0 + 0.5 * b * (r - m)) (0.5 * b * 1) x :=
    (h1.const_mul (0.5 * b)).const_add f0
  have h3 := (h2.mul h1).const_sub e0
  convert h3 using 1
  ring

/-- C13: for every sampled table with at least two samples and
`minval < maxval`, and every displacement `dx` whose length `x` is positive and
below `minval`: `calc_tab_bond_force` uses the force
`f0 + (f1 - f0) / spacing * (x - minval)`, the linear extrapolation from the
first two force samples; `tab_bond_energy` returns
`e0 - (f0 + 0.5 (f1 - f0) / spacing * (x - minval)) (x - minval)`, the quadratic
extrapolation from the first two force samples and the first energy sample;
and the force of the table at `x` is the negative derivative of the energy of
the table with respect to the distance at `x`. -/
theorem tab_bond_extrapolation (t : TabulatedSamples ℝ)
    (angle_harmonic : Angle_harmonic_bond_parameters ℝ) (dx : Vector3d ℝ)
    (hlen : 2 ≤ t.force_tab.length) (hlen_eq : t.energy_tab.length = t.force_tab.length)
    (hrange : t.minval < t.maxval)
    (hpos : 0 < dx.norm Real.sqrt) (hmin : dx.norm Real.sqrt < t.minval) :
    calc_tab_bond_force Real.sqrt ⟨⟨angle_harmonic, ⟨t.toTabulatedPotential⟩⟩⟩ dx
      = (false,
          ((t.force_tab.getD 0 0
              + (t.force_tab.getD 1 0 - t.force_tab.getD 0 0) / t.spacing
                * (dx.norm Real.sqrt - t.minval))
            / dx.norm Real.sqrt) • dx) ∧
    tab_bond_energy Real.sqrt ⟨⟨angle_harmonic, ⟨t.toTabulatedPotential⟩⟩⟩ dx
      = (false,
          t.energy_tab.getD 0 0
            - (t.force_tab.getD 0 0
                + 0.5 * ((t.force_tab.getD 1 0 - t.force_tab.getD 0 0) / t.spacing)
                  * (dx.norm Real.sqrt - t.minval))
              * (dx.norm Real.sqrt - t.minval)) ∧
    HasDerivAt t.toTabulatedPotential.energy
      (-(t.toTabulatedPotential.force (dx.norm Real.sqrt))) (dx.norm Real.sqrt) := by
  have _h1 := hlen
  have _h2 := hlen_eq
  have _h3 := hpos
  have hcut : dx.norm Real.sqrt < t.toTabulatedPotential.cutoff := lt_trans hmin hrange
  refine ⟨?_, ?_, ?_⟩
  · simp only [calc_tab_bond_force, if_pos hcut]
    simp only [TabulatedSamples.toTabulatedPotential, TabulatedSamples.force, if_pos hmin]
  · simp only [tab_bond_energy, if_pos hcut]
    simp only [TabulatedSamples.toTabulatedPotential, TabulatedSamples.energy, if_pos hmin]
  · simp only [TabulatedSamples.toTabulatedPotential, TabulatedSamples.force, if_pos hmin]
    refine (quadratic_extrapolation_hasDerivAt (t.energy_tab.getD 0 0) _ _ _ _).congr_of_eventuallyEq
      ?_
    filter_upwards [Iio_mem_nhds hmin] with r hr
    simp only [TabulatedSamples.energy, if_pos (Set.mem_Iio.mp hr)]

/-- The length of the displacement `(3/10, 0, 0)` is `3/10`. -/
theorem norm_three_tenths :
    Vector3d.norm Real.sqrt (⟨3 / 10, 0, 0⟩ : Vector3d ℝ) = 3 / 10 := by
  simp only [Vector3d.norm, Vector3d.norm2, Vector3d.dot, mul_zero, add_zero]
  exact Real.sqrt_mul_self (by norm_num)

/-- C13, concrete scenario: `minval = 0.5`, `maxval = 1.5`, force samples
`1, 2, 3`, energy samples `4, 3, 2` (spacing `0.5`) and the displacement
`(0.3, 0, 0)` of length `0.3`: the force is `(0.6, 0, 0)` and the energy
`4.16`. -/
theorem tab_bond_extrapolation_witness :
    calc_tab_bond_force Real.sqrt
        ⟨⟨⟨0, 0⟩, ⟨(⟨1 / 2, 3 / 2, [4, 3, 2], [1, 2, 3]⟩ :
          TabulatedSamples ℝ).toTabulatedPotential⟩⟩⟩ ⟨3 / 10, 0, 0⟩
      = (false, ⟨3 / 5, 0, 0⟩) ∧
    tab_bond_energy Real.sqrt
        ⟨⟨⟨0, 0⟩, ⟨(⟨1 / 2, 3 / 2, [4, 3, 2], [1, 2, 3]⟩ :
          TabulatedSamples ℝ).toTabulatedPotential⟩⟩⟩ ⟨3 / 10, 0, 0⟩
      = (false, 104 / 25) := by
  have h := tab_bond_extrapolation ⟨1 / 2, 3 / 2, [4, 3, 2], [1, 2, 3]⟩ ⟨0, 0⟩ ⟨3 / 10, 0, 0⟩
    (by simp) (by simp) (by norm_num)
    (by rw [norm_three_tenths]; norm_num) (by rw [norm_three_tenths]; norm_num)
  refine ⟨?_, ?_⟩
  · rw [h.1, norm_three_tenths]
    congr 1
    ext
    · simp [TabulatedSamples.spacing]
      norm_num
    · simp
    · simp
  · rw [h.2.1, norm_three_tenths]
    congr 1
    simp [TabulatedSamples.spacing]
    norm_num

/-! ## Zero distance in the tabulated bond force -/

/-- C14, evaluation at the failing input: with cutoff `1` and the zero
displacement `(0, 0, 0)`, `calc_tab_bond_force` returns the flag `false` and
executes the division `force(dist) / dist` with the divisor `dist = 0`. -/
theorem tab_bond_force_zero_distance :
    (calc_tab_bond_force Real.sqrt ⟨⟨⟨0, 0⟩, ⟨⟨0, 1, fun r => r + 1, fun r => r⟩⟩⟩⟩
        (⟨0, 0, 0⟩ : Vector3d ℝ)).1 = false ∧
    calc_tab_bond_force.divisors Real.sqrt ⟨⟨⟨0, 0⟩, ⟨⟨0, 1, fun r => r + 1, fun r => r⟩⟩⟩⟩
        (⟨0, 0, 0⟩ : Vector3d ℝ) = [0] := by
  simp [calc_tab_bond_force, calc_tab_bond_force.divisors, Vector3d.norm, Vector3d.norm2,
    Vector3d.dot, TabulatedPotential.cutoff]

/-! ## Particle positions observable -/

namespace Observables

variable {α : Type}

/-- Writing the three components of one particle. -/
theorem set_three (lv : List α) (i : Nat) (x y z : α) (h : 3 * i + 2 < lv.length) :
    (((lv.set (3 * i + 0) x).set (3 * i + 1) y).set (3 * i + 2) z)[3 * i]? = some x ∧
    (((lv.set (3 * i + 0) x).set (3 * i + 1) y).set (3 * i + 2) z)[3 * i + 1]? = some y ∧
    (((lv.set (3 * i + 0) x).set (3 * i + 1) y).set (3 * i + 2) z)[3 * i + 2]? = some z ∧
    ∀ n : Nat, n < 3 * i ∨ 3 * i + 3 ≤ n →
      (((lv.set (3 * i + 0) x).set (3 * i + 1) y).set (3 * i + 2) z)[n]? = lv[n]? := by
  refine ⟨?_, ?_, ?_, ?_⟩
  · rw [List.getElem?_set_ne (by omega), List.getElem?_set_ne (by omega)]
    exact List.getElem?_set_self (by omega)
  · rw [List.getElem?_set_ne (by omega)]
    exact List.getElem?_set_self (by simp; omega)
  · exact List.getElem?_set_self (by simp; omega)
  · intro n hn
    rw [List.getElem?_set_ne (by omega), List.getElem?_set_ne (by omega),
      List.getElem?_set_ne (by omega)]

/-- The loop started at index `i` leaves the entries below `3 i` unchanged. -/
theorem loop_below (n_part : Int) (partCfg : Int → Particle α) (ids : List Int) :
    ∀ (i : Nat) (lv : List α) (n : Nat), n < 3 * i →
      (ParticlePositions.actual_calculate.loop n_part partCfg ids i lv).2[n]? = lv[n]? := by
  induction ids with
  | nil => intro i lv n _; rfl
  | cons id rest ih =>
    intro i lv n hn
    simp only [ParticlePositions.actual_calculate.loop]
    split
    · rfl
    · rw [ih (i + 1) _ n (by omega)]
      rw [List.getElem?_set_ne (by omega), List.getElem?_set_ne (by omega),
        List.getElem?_set_ne (by omega)]

/-- The loop over identifiers that are all below `n_part`. -/
theorem loop_ok (n_part : Int) (partCfg : Int → Particle α) (ids : List Int) :
    ∀ (i : Nat) (lv : List α), (∀ id ∈ ids, id < n_part) →
      3 * (i + ids.length) ≤ lv.length →
      (ParticlePositions.actual_calculate.loop n_part partCfg ids i lv).1 = 0 ∧
      ∀ (j : Nat) (id : Int), ids[j]? = some id →
        (ParticlePositions.actual_calculate.loop n_part partCfg ids i lv).2[3 * (i + j)]?
          = some (partCfg id).r.p.x ∧
        (ParticlePositions.actual_calculate.loop n_part partCfg ids i lv).2[3 * (i + j) + 1]?
          = some (partCfg id).r.p.y ∧
        (ParticlePositions.actual_calculate.loop n_part partCfg ids i lv).2[3 * (i + j) + 2]?
          = some (partCfg id).r.p.z := by
  induction ids with
  | nil =>
    intro i lv _ _
    exact ⟨rfl, fun j id h => by simp at h⟩
  | cons id rest ih =>
    intro i lv hall hlen
    have hid : ¬ id ≥ n_part := not_le.mpr (hall id (List.mem_cons_self _ _))
    have hlen' : 3 * i + 2 < lv.length := by
      simp only [List.length_cons] at hlen
      omega
    simp only [ParticlePositions.actual_calculate.loop, if_neg hid]
    have hs := set_three lv i (partCfg id).r.p.x (partCfg id).r.p.y (partCfg id).r.p.z hlen'
    have hrec := ih (i + 1)
      (((lv.set (3 * i + 0) (partCfg id).r.p.x).set (3 * i + 1) (partCfg id).r.p.y).set
        (3 * i + 2) (partCfg id).r.p.z)
      (fun a ha => hall a (List.mem_cons_of_mem _ ha))
      (by simp only [List.length_set, List.length_cons] at hlen ⊢; omega)
    refine ⟨hrec.1, ?_⟩
    intro j a hj
    cases j with
    | zero =>
      simp only [List.getElem?_cons_zero, Option.some.injEq] at hj
      subst hj
      simp only [Nat.add_zero]
      rw [loop_below _ _ _ _ _ _ (by omega), loop_below _ _ _ _ _ _ (by omega),
        loop_below _ _ _ _ _ _ (by omega)]
      exact ⟨hs.1, hs.2.1, hs.2.2.1⟩
    | succ j =>
      simp only [List.getElem?_cons_succ] at hj
      have h := hrec.2 j a hj
      have e : 3 * (i + (j + 1)) = 3 * (i + 1 + j) := by omega
      rw [e]
      exact h

/-- The loop over identifiers of which the one at position `m` is the first
that is not below `n_part`. -/
theorem loop_fail (n_part : Int) (partCfg : Int → Particle α) (ids : List Int) :
    ∀ (i : Nat) (lv : List α) (m : Nat) (id : Int), ids[m]? = some id → id ≥ n_part →
      (∀ (j : Nat) (a : Int), j < m → ids[j]? = some a → a < n_part) →
      3 * (i + m) ≤ lv.length →
      (ParticlePositions.actual_calculate.loop n_part partCfg ids i lv).1 = 1 ∧
      (∀ (j : Nat) (a : Int), j < m → ids[j]? = some a →
        (ParticlePositions.actual_calculate.loop n_part partCfg ids i lv).2[3 * (i + j)]?
          = some (partCfg a).r.p.x ∧
        (ParticlePositions.actual_calculate.loop n_part partCfg ids i lv).2[3 * (i + j) + 1]?
          = some (partCfg a).r.p.y ∧
        (ParticlePositions.actual_calculate.loop n_part partCfg ids i lv).2[3 * (i + j) + 2]?
          = some (partCfg a).r.p.z) ∧
      ∀ n : Nat, 3 * (i + m) ≤ n →
        (ParticlePositions.actual_calculate.loop n_part partCfg ids i lv).2[n]? = lv[n]? := by
  induction ids with
  | nil =>
    intro i lv m id h
    simp at h
  | cons a0 rest ih =>
    intro i lv m id hm hid hbefore hlen
    cases m with
    | zero =>
      simp only [List.getElem?_cons_zero, Option.some.injEq] at hm
      subst hm
      have hrun : ParticlePositions.actual_calculate.loop n_part partCfg (a0 :: rest) i lv
          = (1, lv) := by
        simp only [ParticlePositions.actual_calculate.loop, if_pos hid]
      rw [hrun]
      exact ⟨rfl, fun j a hj => absurd hj (Nat.not_lt_zero j), fun _ _ => rfl⟩
    | succ m =>
      simp only [List.getElem?_cons_succ] at hm
      have h0 : ¬ a0 ≥ n_part := not_le.mpr (hbefore 0 a0 (Nat.succ_pos m) (by simp))
      have hlen' : 3 * i + 2 < lv.length := by omega
      simp only [ParticlePositions.actual_calculate.loop, if_neg h0]
      have hs := set_three lv i (partCfg a0).r.p.x (partCfg a0).r.p.y (partCfg a0).r.p.z hlen'
      have hrec := ih (i + 1)
        (((lv.set (3 * i + 0) (partCfg a0).r.p.x).set (3 * i + 1) (partCfg a0).r.p.y).set
          (3 * i + 2) (partCfg a0).r.p.z) m id hm hid
        (fun j a hj ha => hbefore (j + 1) a (Nat.succ_lt_succ hj) (by simpa using ha))
        (by simp only [List.length_set]; omega)
      refine ⟨hrec.1, ?_, ?_⟩
      · intro j a hj ha
        cases j with
        | zero =>
          simp only [List.getElem?_cons_zero, Option.some.injEq] at ha
          subst ha
          simp only [Nat.add_zero]
          rw [loop_below _ _ _ _ _ _ (by omega), loop_below _ _ _ _ _ _ (by omega),
            loop_below _ _ _ _ _ _ (by omega)]
          exact ⟨hs.1, hs.2.1, hs.2.2.1⟩
        | succ j =>
          simp only [List.getElem?_cons_succ] at ha
          have h := hrec.2.1 j a (Nat.lt_of_succ_lt_succ hj) ha
          have e : 3 * (i + (j + 1)) = 3 * (i + 1 + j) := by omega
          rw [e]
          exact h
      · intro n hn
        rw [hrec.2.2 n (by omega)]
        exact hs.2.2.2 n (Or.inr (by omega))

/-- The loop returns `1` as soon as some identifier is not below `n_part`. -/
theorem loop_returns_one (n_part : Int) (partCfg : Int → Particle α) (ids : List Int) :
    ∀ (i : Nat) (lv : List α), (∃ id ∈ ids, id ≥ n_part) →
      (ParticlePositions.actual_calculate.loop n_part partCfg ids i lv).1 = 1 := by
  induction ids with
  | nil =>
    intro i lv h
    obtain ⟨id, hid, _⟩ := h
    simp at hid
  | cons a0 rest ih =>
    intro i lv h
    simp only [ParticlePositions.actual_calculate.loop]
    split
    · rfl
    · rename_i h0
      obtain ⟨id, hid, hge⟩ := h
      rcases List.mem_cons.mp hid with heq | hmem
      · exact absurd (heq ▸ hge) h0
      · exact ih _ _ ⟨id, hmem, hge⟩

/-- C19: for `ParticlePositions::actual_calculate` with a successfully sorted
particle configuration and an output vector of `3 * ids.size()` entries: if
every `ids[i]` satisfies `0 <= ids[i] < n_part` the call returns `0` and
afterwards `last_value[3 i + k]` is component `k` of the position of particle
`ids[i]`; if some `ids[i] >= n_part` the call returns `1`, and with `m` the
first such index the entries of the indices before `m` hold the positions of
their particles and the entries from `3 m` on are unchanged. -/
theorem actual_calculate_spec (n_part : Int) (partCfg : Int → Particle α) (ids : List Int)
    (last_value : List α) (hlen : last_value.length = 3 * ids.length) :
    ((∀ id ∈ ids, 0 ≤ id ∧ id < n_part) →
      (ParticlePositions.actual_calculate true n_part partCfg ids last_value).1 = 0 ∧
      ∀ (i : Nat) (id : Int), ids[i]? = some id →
        (ParticlePositions.actual_calculate true n_part partCfg ids last_value).2[3 * i]?
          = some (partCfg id).r.p.x ∧
        (ParticlePositions.actual_calculate true n_part partCfg ids last_value).2[3 * i + 1]?
          = some (partCfg id).r.p.y ∧
        (ParticlePositions.actual_calculate true n_part partCfg ids last_value).2[3 * i + 2]?
          = some (partCfg id).r.p.z) ∧
    ((∃ id ∈ ids, id ≥ n_part) →
      (ParticlePositions.actual_calculate true n_part partCfg ids last_value).1 = 1) ∧
    (∀ (m : Nat) (id : Int), ids[m]? = some id → id ≥ n_part →
      (∀ (j : Nat) (a : Int), j < m → ids[j]? = some a → a < n_part) →
      (ParticlePositions.actual_calculate true n_part partCfg ids last_value).1 = 1 ∧
      (∀ (j : Nat) (a : Int), j < m → ids[j]? = some a →
        (ParticlePositions.actual_calculate true n_part partCfg ids last_value).2[3 * j]?
          = some (partCfg a).r.p.x ∧
        (ParticlePositions.actual_calculate true n_part partCfg ids last_value).2[3 * j + 1]?
          = some (partCfg a).r.p.y ∧
        (ParticlePositions.actual_calculate true n_part partCfg ids last_value).2[3 * j + 2]?
          = some (partCfg a).r.p.z) ∧
      ∀ n : Nat, 3 * m ≤ n →
        (ParticlePositions.actual_calculate true n_part partCfg ids last_value).2[n]?
          = last_value[n]?) := by
  have hrun : ParticlePositions.actual_calculate true n_part partCfg ids last_value
      = ParticlePositions.actual_calculate.loop n_part partCfg ids 0 last_value := rfl
  rw [hrun]
  refine ⟨?_, loop_returns_one n_part partCfg ids 0 last_value, ?_⟩
  · intro hall
    have h := loop_ok n_part partCfg ids 0 last_value (fun id hid => (hall id hid).2)
      (by omega)
    refine ⟨h.1, fun i id hi => ?_⟩
    have hi' := h.2 i id hi
    simpa only [Nat.zero_add] using hi'
  · intro m id hm hid hbefore
    have hmlt : m < ids.length := by
      by_contra hge
      rw [List.getElem?_eq_none (by omega)] at hm
      exact Option.noConfusion hm
    have h := loop_fail n_part partCfg ids 0 last_value m id hm hid hbefore (by omega)
    refine ⟨h.1, fun j a hj ha => ?_, fun n hn => ?_⟩
    · have hj' := h.2.1 j a hj ha
      simpa only [Nat.zero_add] using hj'
    · exact h.2.2 n (by omega)

/-- C19 with two particles: `n_part = 2`, particle `id` at the position
`(id, 10 id, 100 id)`, `ids = [1, 0]` and an output vector of six entries `9`:
the call returns `0` and the first three entries are the position of
particle `1`. -/
theorem actual_calculate_spec_witness :
    (ParticlePositions.actual_calculate true 2
        (fun id => (⟨⟨⟨id, 10 * id, 100 * id⟩⟩⟩ : Particle Int)) [1, 0]
        [9, 9, 9, 9, 9, 9]).1 = 0 ∧
    (ParticlePositions.actual_calculate true 2
        (fun id => (⟨⟨⟨id, 10 * id, 100 * id⟩⟩⟩ : Particle Int)) [1, 0]
        [9, 9, 9, 9, 9, 9]).2[3 * 0]? = some 1 ∧
    (ParticlePositions.actual_calculate true 2
        (fun id => (⟨⟨⟨id, 10 * id, 100 * id⟩⟩⟩ : Particle Int)) [1, 0]
        [9, 9, 9, 9, 9, 9]).2[3 * 0 + 1]? = some 10 ∧
    (ParticlePositions.actual_calculate true 2
        (fun id => (⟨⟨⟨id, 10 * id, 100 * id⟩⟩⟩ : Particle Int)) [1, 0]
        [9, 9, 9, 9, 9, 9]).2[3 * 0 + 2]? = some 100 := by
  have h := (actual_calculate_spec 2
    (fun id => (⟨⟨⟨id, 10 * id, 100 * id⟩⟩⟩ : Particle Int)) [1, 0] [9, 9, 9, 9, 9, 9]
    rfl).1 (by decide)
  exact ⟨h.1, h.2 0 1 rfl⟩

end Observables
